import Mathlib

/-!
# todo-api: cache-aside task repository, task service and HTTP handlers

A shallow embedding of

* `internal/models/task.go` (the `Task` entity and `Validate`),
* `internal/repository/postgres/task_repository.go` (the cache-aside repository),
* `internal/service/task.go` (the task service),
* `internal/api/handlers/task_handler.go` (the HTTP handlers),

together with models of the two backends the repository talks to: the
relational store (the `tasks` table reached through the pgx pool) and the
cache port (`pkg/cache`).

Go values are embedded as follows.  An `error` result is `Option GoError`
(`none` is `nil`); a `*models.Task` result is `Option Task` (`none` is `nil`);
a `[]*models.Task` result is `List Task` (the `nil` slice and the empty slice
are both `[]`).  A method on a receiver with mutable backends takes the state
of the backends as an argument and returns the new state next to its results.
Every call to a backend or to the logger is appended to `World.trace`, so
that "performs no cache operation" and "exactly one store lookup" are
statements about the trace.
-/

namespace TodoApi

/-! ## Go errors -/

/-- Go error values: `new msg` is `errors.New(msg)` (also `fmt.Errorf(msg)` with
no verb), `wrapf pre cause` is `fmt.Errorf(pre + "%w", cause)`. -/
inductive GoError where
  | new (msg : String)
  | wrapf (pre : String) (cause : GoError)
  deriving DecidableEq, Repr

/-- The `Error()` method: the message of an error. -/
def GoError.Error : GoError → String
  | .new msg => msg
  | .wrapf pre cause => pre ++ cause.Error

/-- The `Unwrap()` method of the value `fmt.Errorf` builds for `%w`. -/
def GoError.Unwrap : GoError → Option GoError
  | .new _ => none
  | .wrapf _ cause => some cause

/-! ## internal/models/task.go -/

/-- The `models.Task` struct. -/
structure Task where
  ID : Int
  Title : String
  Completed : Bool
  deriving DecidableEq, Repr

/-- The method `(*Task).Validate`: an empty title is rejected. -/
def Task.Validate (t : Task) : Option GoError :=
  if t.Title = "" then some (.new "title is required") else none

/-! ## The store: table `tasks` behind the pgx pool -/

/-- State of the relational store: the rows of table `tasks` in table order,
the next value of the `id` sequence, and a fault which, when present, makes
every statement fail with that error (connectivity, timeout, ...).  `midQuery`
says when the fault strikes a multi-row query: `none`, before the query is
accepted, so that `pool.Query` returns the error; `some k`, during execution
after `k` rows were delivered, so that `pool.Query` returns no error,
`rows.Next()` delivers `k` rows and then stops, and the error is what
`rows.Err()` holds.  `Exec` and `QueryRow(...).Scan` return the error in both
cases. -/
structure Store where
  rows : List Task
  nextID : Int
  fault : Option GoError
  midQuery : Option Nat := none
  deriving DecidableEq, Repr

/-- The sentinel `pgx.ErrNoRows`, which `Row.Scan` returns when the query has no row. -/
def ErrNoRows : GoError := .new "no rows in result set"

/-- The statement `INSERT INTO tasks (title, completed) VALUES ($1, $2) RETURNING id`,
scanned into the id. -/
def Store.insertReturningID (s : Store) (title : String) (completed : Bool) :
    Except GoError Int × Store :=
  match s.fault with
  | some e => (.error e, s)
  | none =>
    (.ok s.nextID,
      { s with rows := s.rows ++ [{ ID := s.nextID, Title := title, Completed := completed }],
               nextID := s.nextID + 1 })

/-- The query `SELECT id, title, completed FROM tasks` through `pool.Query`: the
error `Query` returns, or else the rows `rows.Next()` delivers together with
the error `rows.Err()` holds once they are read. -/
def Store.selectAll (s : Store) : Except GoError (List Task × Option GoError) :=
  match s.fault with
  | none => .ok (s.rows, none)
  | some e =>
    match s.midQuery with
    | none => .error e
    | some k => .ok (s.rows.take k, some e)

/-- The query `SELECT id, title, completed FROM tasks WHERE id = $1`, scanned as one row. -/
def Store.selectByID (s : Store) (id : Int) : Except GoError Task :=
  match s.fault with
  | some e => .error e
  | none =>
    match s.rows.find? (fun t => t.ID == id) with
    | some t => .ok t
    | none => .error ErrNoRows

/-- The statement `UPDATE tasks SET title = $1, completed = $2 WHERE id = $3`; the
number returned is `RowsAffected()`. -/
def Store.update (s : Store) (title : String) (completed : Bool) (id : Int) :
    Except GoError Nat × Store :=
  match s.fault with
  | some e => (.error e, s)
  | none =>
    (.ok (s.rows.countP (fun t => t.ID == id)),
      { s with rows := s.rows.map (fun t =>
          if t.ID == id then { t with Title := title, Completed := completed } else t) })

/-- The statement `DELETE FROM tasks WHERE id = $1`; the number returned is
`RowsAffected()`. -/
def Store.delete (s : Store) (id : Int) : Except GoError Nat × Store :=
  match s.fault with
  | some e => (.error e, s)
  | none =>
    (.ok (s.rows.countP (fun t => t.ID == id)),
      { s with rows := s.rows.filter (fun t => !(t.ID == id)) })

/-! ## The cache port (`pkg/cache`) -/

/-- What the repository stores under a key: one task (item keys) or a list of
tasks (the list key), in serialized form. -/
inductive Payload where
  | task (t : Task)
  | tasks (ts : List Task)
  deriving DecidableEq, Repr

/-- One cache entry with its expiry instant (nanoseconds on the cache's clock). -/
structure CacheEntry where
  key : String
  val : Payload
  expiresAt : Nat
  deriving DecidableEq, Repr

/-- Modelled from the spec: the cache port `cache.Cache` of package `pkg/cache`,
whose interface and Redis implementation are not among the sources.  It is a
key-value store with `Get`, `Set` with a time to live, and `Delete`; `Get` on an
absent or expired key reports "not found"; each operation may fail (connectivity,
timeout), in which case it has no effect.  `getErr`, `setErr` and `delErr` say
whether the operation fails in this state and with which error. -/
structure Cache where
  entries : List CacheEntry
  now : Nat
  getErr : Option GoError
  setErr : Option GoError
  delErr : Option GoError
  deriving DecidableEq, Repr

/-- The error `Get` reports for an absent or expired key. -/
def ErrCacheMiss : GoError := .new "cache: key not found"

/-- The error of deserializing a payload into a destination of the other shape. -/
def ErrUnmarshal : GoError := .new "json: cannot unmarshal value into destination"

/-- The payload a working `Get` finds under `key`: the first unexpired entry. -/
def Cache.live (c : Cache) (key : String) : Option Payload :=
  (c.entries.find? (fun e => e.key == key && decide (c.now < e.expiresAt))).map (fun e => e.val)

/-- Cache `Get(key)`: the payload on a hit, an error on a miss or a failure. -/
def Cache.Get (c : Cache) (key : String) : Except GoError Payload :=
  match c.getErr with
  | some e => .error e
  | none =>
    match c.live key with
    | some v => .ok v
    | none => .error ErrCacheMiss

/-- Cache `Set(key, value, ttl)`. -/
def Cache.Set (c : Cache) (key : String) (v : Payload) (ttl : Nat) : Option GoError × Cache :=
  match c.setErr with
  | some e => (some e, c)
  | none =>
    (none, { c with entries :=
      { key := key, val := v, expiresAt := c.now + ttl } :: c.entries.filter (fun e => !(e.key == key)) })

/-- Cache `Delete(key)`; deleting an absent key is not an error. -/
def Cache.Delete (c : Cache) (key : String) : Option GoError × Cache :=
  match c.delErr with
  | some e => (some e, c)
  | none => (none, { c with entries := c.entries.filter (fun e => !(e.key == key)) })

/-- Time passing on the cache's clock (an action of the environment). -/
def Cache.advance (c : Cache) (d : Nat) : Cache := { c with now := c.now + d }

/-- Deserializing a payload into a `[]*models.Task` destination. -/
def Payload.asTasks : Payload → Except GoError (List Task)
  | .tasks ts => .ok ts
  | .task _ => .error ErrUnmarshal

/-- Deserializing a payload into a `*models.Task` destination. -/
def Payload.asTask : Payload → Except GoError Task
  | .task t => .ok t
  | .tasks _ => .error ErrUnmarshal

/-! ## The world the repository acts on -/

/-- Levels of the zap logger. -/
inductive LogLevel where
  | debug | info | warn | error
  deriving DecidableEq, Repr

/-- One call to a backend or to the logger. -/
inductive Effect where
  | sql (query : String)
  | cacheGet (key : String)
  | cacheSet (key : String) (val : Payload) (ttl : Nat)
  | cacheDelete (key : String)
  | log (level : LogLevel) (msg : String)
  deriving DecidableEq, Repr

/-- The store, the cache, and the calls made so far (oldest first). -/
structure World where
  store : Store
  cache : Cache
  trace : List Effect
  deriving DecidableEq, Repr

/-- Record a call. -/
def World.emit (w : World) (e : Effect) : World := { w with trace := w.trace ++ [e] }

/-- Whether a call is a statement sent to the store. -/
def Effect.isStore : Effect → Bool
  | .sql _ => true
  | _ => false

/-- Whether a call is a cache operation. -/
def Effect.isCache : Effect → Bool
  | .cacheGet _ => true
  | .cacheSet _ _ _ => true
  | .cacheDelete _ => true
  | _ => false

/-- The calls `w2` has recorded beyond those of `w1`. -/
def World.since (w2 w1 : World) : List Effect := w2.trace.drop w1.trace.length

/-- Cache `Get` into a `[]*models.Task` destination, recorded in the trace. -/
def World.cacheGetTasks (w : World) (key : String) : Except GoError (List Task) × World :=
  (w.cache.Get key >>= Payload.asTasks, w.emit (.cacheGet key))

/-- Cache `Get` into a `*models.Task` destination, recorded in the trace. -/
def World.cacheGetTask (w : World) (key : String) : Except GoError Task × World :=
  (w.cache.Get key >>= Payload.asTask, w.emit (.cacheGet key))

/-- Cache `Set`, recorded in the trace. -/
def World.cacheSet (w : World) (key : String) (v : Payload) (ttl : Nat) : Option GoError × World :=
  ((w.cache.Set key v ttl).1,
    { w with cache := (w.cache.Set key v ttl).2, trace := w.trace ++ [.cacheSet key v ttl] })

/-- Cache `Delete`, recorded in the trace. -/
def World.cacheDelete (w : World) (key : String) : Option GoError × World :=
  ((w.cache.Delete key).1,
    { w with cache := (w.cache.Delete key).2, trace := w.trace ++ [.cacheDelete key] })

/-- The logger, recorded in the trace (fields of the log entry are not kept). -/
def World.log (w : World) (level : LogLevel) (msg : String) : World := w.emit (.log level msg)

/-! ## internal/repository/postgres/task_repository.go -/

def taskCacheKeyPrefix : String := "task:"

def tasksCacheKey : String := "tasks:all"

/-- The constant `cacheDuration = 5 * time.Minute`, in nanoseconds as `time.Duration` counts. -/
def cacheDuration : Nat := 5 * (60 * 1000000000)

/-- The item key `fmt.Sprintf("%s%d", taskCacheKeyPrefix, id)`. -/
def itemKey (id : Int) : String := taskCacheKeyPrefix ++ toString id

def sqlInsert : String := "INSERT INTO tasks (title, completed) VALUES ($1, $2) RETURNING id"

def sqlSelectAll : String := "SELECT id, title, completed FROM tasks"

def sqlSelectByID : String := "SELECT id, title, completed FROM tasks WHERE id = $1"

def sqlUpdate : String := "UPDATE tasks SET title = $1, completed = $2 WHERE id = $3"

def sqlDelete : String := "DELETE FROM tasks WHERE id = $1"

/-- The method `(*TaskRepository).CreateTask`.  The task is passed by pointer and
its `ID` is assigned by the scan, so the task as it is after the call is
returned next to the error. -/
def TaskRepository.CreateTask (w : World) (task : Task) : (Task × Option GoError) × World :=
  let q := w.store.insertReturningID task.Title task.Completed
  let w1 : World := { w with store := q.2, trace := w.trace ++ [.sql sqlInsert] }
  match q.1 with
  | .error err => ((task, some (.wrapf "failed to create task: " err)), w1)
  | .ok id =>
    let d := w1.cacheDelete tasksCacheKey
    match d.1 with
    | some _ =>
      (({ task with ID := id }, none), d.2.log .warn "failed to invalidate tasks cache")
    | none => (({ task with ID := id }, none), d.2)

/-- The method `(*TaskRepository).GetTasks`.  The loop over the rows appends each
row `rows.Next()` delivers to `tasks`; rows of the typed table always scan.
The method never calls `rows.Err()`: what the answer holds there
(`answer.2`) is not looked at. -/
def TaskRepository.GetTasks (w : World) : (List Task × Option GoError) × World :=
  let g := w.cacheGetTasks tasksCacheKey
  match g.1 with
  | .ok tasks => ((tasks, none), g.2.log .debug "tasks retrieved from cache")
  | .error _ =>
    let w2 := g.2.emit (.sql sqlSelectAll)
    match w2.store.selectAll with
    | .error err => (([], some (.wrapf "failed to query tasks: " err)), w2)
    | .ok answer =>
      let tasks := answer.1.foldl (fun acc task => acc ++ [task]) []
      let c := w2.cacheSet tasksCacheKey (.tasks tasks) cacheDuration
      match c.1 with
      | some _ => ((tasks, none), c.2.log .warn "failed to cache tasks")
      | none => ((tasks, none), c.2)

/-- The method `(*TaskRepository).GetTaskByID`. -/
def TaskRepository.GetTaskByID (w : World) (id : Int) : (Option Task × Option GoError) × World :=
  let cacheKey := itemKey id
  let g := w.cacheGetTask cacheKey
  match g.1 with
  | .ok task => ((some task, none), g.2.log .debug "task retrieved from cache")
  | .error _ =>
    let w2 := g.2.emit (.sql sqlSelectByID)
    match w2.store.selectByID id with
    | .error err => ((none, some (.wrapf "failed to get task: " err)), w2)
    | .ok task =>
      let c := w2.cacheSet cacheKey (.task task) cacheDuration
      match c.1 with
      | some _ => ((some task, none), c.2.log .warn "failed to cache task")
      | none => ((some task, none), c.2)

/-- The two invalidations at the end of `UpdateTask` and of `DeleteTask`: the item
key, then the list key, each failure logged and dropped. -/
def invalidateBoth (w : World) (id : Int) : World :=
  let d1 := w.cacheDelete (itemKey id)
  let w1 := match d1.1 with
    | some _ => d1.2.log .warn "failed to invalidate task cache"
    | none => d1.2
  let d2 := w1.cacheDelete tasksCacheKey
  match d2.1 with
  | some _ => d2.2.log .warn "failed to invalidate tasks cache"
  | none => d2.2

/-- The method `(*TaskRepository).UpdateTask`. -/
def TaskRepository.UpdateTask (w : World) (task : Task) : Option GoError × World :=
  let q := w.store.update task.Title task.Completed task.ID
  let w1 : World := { w with store := q.2, trace := w.trace ++ [.sql sqlUpdate] }
  match q.1 with
  | .error err => (some (.wrapf "failed to update task: " err), w1)
  | .ok rowsAffected =>
    if rowsAffected = 0 then (some (.new "task not found"), w1)
    else (none, invalidateBoth w1 task.ID)

/-- The method `(*TaskRepository).DeleteTask`. -/
def TaskRepository.DeleteTask (w : World) (id : Int) : Option GoError × World :=
  let q := w.store.delete id
  let w1 : World := { w with store := q.2, trace := w.trace ++ [.sql sqlDelete] }
  match q.1 with
  | .error err => (some (.wrapf "failed to delete task: " err), w1)
  | .ok rowsAffected =>
    if rowsAffected = 0 then (some (.new "task not found"), w1)
    else (none, invalidateBoth w1 id)

/-! ## internal/service/task.go -/

/-- The interface `service.TaskRepository`, over a state `σ` of whatever stands
behind the implementation. -/
structure TaskRepositoryPort (σ : Type) where
  CreateTask : σ → Task → (Task × Option GoError) × σ
  GetTasks : σ → (List Task × Option GoError) × σ
  GetTaskByID : σ → Int → (Option Task × Option GoError) × σ
  UpdateTask : σ → Task → Option GoError × σ
  DeleteTask : σ → Int → Option GoError × σ

/-- The struct `service.TaskService`: a repository and a logger. -/
structure TaskService (σ : Type) where
  repo : TaskRepositoryPort σ
  logger : σ → LogLevel → String → σ

/-- The method `(*TaskService).CreateTask`. -/
def TaskService.CreateTask {σ : Type} (s : TaskService σ) (st : σ) (title : String) :
    Option GoError × σ :=
  let st1 := s.logger st .info "creating new task"
  let task : Task := { ID := 0, Title := title, Completed := false }
  let r := s.repo.CreateTask st1 task
  match r.1.2 with
  | some err => (some err, s.logger r.2 .error "failed to create task")
  | none => (none, s.logger r.2 .info "task created successfully")

/-- The method `(*TaskService).GetTasks`. -/
def TaskService.GetTasks {σ : Type} (s : TaskService σ) (st : σ) :
    (List Task × Option GoError) × σ :=
  let st1 := s.logger st .info "getting all tasks"
  let r := s.repo.GetTasks st1
  match r.1.2 with
  | some err => (([], some err), s.logger r.2 .error "failed to get tasks")
  | none => ((r.1.1, none), s.logger r.2 .info "tasks retrieved successfully")

/-- The method `(*TaskService).GetTaskByID`. -/
def TaskService.GetTaskByID {σ : Type} (s : TaskService σ) (st : σ) (id : Int) :
    (Option Task × Option GoError) × σ :=
  let st1 := s.logger st .info "getting task by id"
  let r := s.repo.GetTaskByID st1 id
  match r.1.2 with
  | some err => ((none, some err), s.logger r.2 .error "failed to get task by id")
  | none => ((r.1.1, none), s.logger r.2 .info "task retrieved successfully")

/-- How a call ends: it returns its `error` result, or the goroutine panics. -/
inductive CallResult where
  | returned (err : Option GoError)
  | panicked (msg : String)
  deriving DecidableEq, Repr

/-- The method `(*TaskService).OpenCloseTask`.  `task.Completed = !task.Completed`
dereferences the pointer the repository returned, which panics on `nil`. -/
def TaskService.OpenCloseTask {σ : Type} (s : TaskService σ) (st : σ) (id : Int) :
    CallResult × σ :=
  let r := s.repo.GetTaskByID st id
  match r.1.2 with
  | some err => (.returned (some err), s.logger r.2 .error "failed to get task by id")
  | none =>
    match r.1.1 with
    | none => (.panicked "invalid memory address or nil pointer dereference", r.2)
    | some task =>
      let u := s.repo.UpdateTask r.2 { task with Completed := !task.Completed }
      match u.1 with
      | some err => (.returned (some err), s.logger u.2 .error "failed to update task")
      | none => (.returned none, s.logger u.2 .info "task updated successfully")

/-- The method `(*TaskService).RemoveTask`. -/
def TaskService.RemoveTask {σ : Type} (s : TaskService σ) (st : σ) (id : Int) :
    Option GoError × σ :=
  let st1 := s.logger st .info "removing task"
  let r := s.repo.DeleteTask st1 id
  match r.1 with
  | some err => (some err, s.logger r.2 .error "failed to remove task")
  | none => (none, s.logger r.2 .info "task removed successfully")

/-! ## Wiring (cmd/api/main.go) -/

/-- The repository `postgres.TaskRepository` as the service's `TaskRepository`. -/
def postgresRepo : TaskRepositoryPort World where
  CreateTask := TaskRepository.CreateTask
  GetTasks := TaskRepository.GetTasks
  GetTaskByID := TaskRepository.GetTaskByID
  UpdateTask := TaskRepository.UpdateTask
  DeleteTask := TaskRepository.DeleteTask

/-- The service as `main.go` builds it: over the Postgres repository. -/
def service : TaskService World where
  repo := postgresRepo
  logger := World.log

/-! ## internal/api/handlers/task_handler.go -/

/-- Body of an HTTP response: the text `http.Error` writes (message and newline),
a JSON encoding, or nothing. -/
inductive Body where
  | text (s : String)
  | json (p : Payload)
  | empty
  deriving DecidableEq, Repr

/-- An HTTP response: status code and body. -/
structure Response where
  status : Nat
  body : Body
  deriving DecidableEq, Repr

def StatusOK : Nat := 200
def StatusCreated : Nat := 201
def StatusNoContent : Nat := 204
def StatusBadRequest : Nat := 400
def StatusInternalServerError : Nat := 500

/-- The call `http.Error(w, err.Error(), code)`. -/
def httpError (err : GoError) (code : Nat) : Response :=
  { status := code, body := .text (err.Error ++ "\n") }

/-- The handler `(*TaskHandler).GetTasks`. -/
def TaskHandler.GetTasks {σ : Type} (h : TaskService σ) (st : σ) : Response × σ :=
  let r := h.GetTasks st
  match r.1.2 with
  | some err => (httpError err StatusInternalServerError, r.2)
  | none => ({ status := StatusOK, body := .json (.tasks r.1.1) }, r.2)

/-- The handler `(*TaskHandler).GetTaskByID`; `idArg` is what
`strconv.Atoi(r.PathValue("id"))` returned.  A `nil` task encodes as JSON `null`. -/
def TaskHandler.GetTaskByID {σ : Type} (h : TaskService σ) (st : σ)
    (idArg : Except GoError Int) : Response × σ :=
  match idArg with
  | .error err => (httpError err StatusBadRequest, st)
  | .ok id =>
    let r := h.GetTaskByID st id
    match r.1.2 with
    | some err => (httpError err StatusInternalServerError, r.2)
    | none =>
      match r.1.1 with
      | some task => ({ status := StatusOK, body := .json (.task task) }, r.2)
      | none => ({ status := StatusOK, body := .text "null\n" }, r.2)

/-- The handler `(*TaskHandler).CreateTask`; `decoded` is what decoding the request
body into a `models.Task` returned. -/
def TaskHandler.CreateTask {σ : Type} (h : TaskService σ) (st : σ)
    (decoded : Except GoError Task) : Response × σ :=
  match decoded with
  | .error err => (httpError err StatusBadRequest, st)
  | .ok task =>
    let r := h.CreateTask st task.Title
    match r.1 with
    | some err => (httpError err StatusInternalServerError, r.2)
    | none => ({ status := StatusCreated, body := .empty }, r.2)

/-- The handler `(*TaskHandler).ChangeTaskStatus`; a panic of the service call
propagates (no response is written by the handler). -/
def TaskHandler.ChangeTaskStatus {σ : Type} (h : TaskService σ) (st : σ)
    (idArg : Except GoError Int) : Option Response × σ :=
  match idArg with
  | .error err => (some (httpError err StatusBadRequest), st)
  | .ok id =>
    let r := h.OpenCloseTask st id
    match r.1 with
    | .panicked _ => (none, r.2)
    | .returned (some err) => (some (httpError err StatusInternalServerError), r.2)
    | .returned none => (some { status := StatusNoContent, body := .empty }, r.2)

/-- The handler `(*TaskHandler).RemoveTask`. -/
def TaskHandler.RemoveTask {σ : Type} (h : TaskService σ) (st : σ)
    (idArg : Except GoError Int) : Response × σ :=
  match idArg with
  | .error err => (httpError err StatusBadRequest, st)
  | .ok id =>
    let r := h.RemoveTask st id
    match r.1 with
    | some err => (httpError err StatusInternalServerError, r.2)
    | none => ({ status := StatusNoContent, body := .empty }, r.2)

/-! ## The write operations as data -/

/-- The three write operations of the repository. -/
inductive WriteOp where
  | create (task : Task)
  | update (task : Task)
  | delete (id : Int)
  deriving DecidableEq, Repr

/-- Running a write operation: its error result and the world after it. -/
def WriteOp.run (w : World) : WriteOp → Option GoError × World
  | .create task => ((TaskRepository.CreateTask w task).1.2, (TaskRepository.CreateTask w task).2)
  | .update task => TaskRepository.UpdateTask w task
  | .delete id => TaskRepository.DeleteTask w id

/-- The keys the specification documents as invalidated by a write: the list
key for a create, the item key and the list key for an update or a delete. -/
def WriteOp.documentedKeys : WriteOp → List String
  | .create _ => [tasksCacheKey]
  | .update task => [itemKey task.ID, tasksCacheKey]
  | .delete id => [itemKey id, tasksCacheKey]

/-- Whether the store mutation of a write succeeds in store `s`: the statement
returns no error and, for an update or a delete, affects at least one row. -/
def WriteOp.storeSucceeds (s : Store) : WriteOp → Bool
  | .create task =>
    match (s.insertReturningID task.Title task.Completed).1 with
    | .ok _ => true
    | .error _ => false
  | .update task =>
    match (s.update task.Title task.Completed task.ID).1 with
    | .ok n => n != 0
    | .error _ => false
  | .delete id =>
    match (s.delete id).1 with
    | .ok n => n != 0
    | .error _ => false

/-- The world in which a write starts its invalidations: the store mutated, the
statement recorded. -/
def WriteOp.afterStore (w : World) : WriteOp → World
  | .create task =>
    { w with store := (w.store.insertReturningID task.Title task.Completed).2,
             trace := w.trace ++ [.sql sqlInsert] }
  | .update task =>
    { w with store := (w.store.update task.Title task.Completed task.ID).2,
             trace := w.trace ++ [.sql sqlUpdate] }
  | .delete id =>
    { w with store := (w.store.delete id).2, trace := w.trace ++ [.sql sqlDelete] }

/-! ## Sample states -/

/-- A cache with no entry in which every operation works. -/
def emptyCache : Cache :=
  { entries := [], now := 0, getErr := none, setErr := none, delErr := none }

/-- A store with no row and no fault. -/
def emptyStore : Store := { rows := [], nextID := 1, fault := none }

/-- A store holding the single open task `1`, titled "a". -/
def oneTaskStore : Store :=
  { rows := [{ ID := 1, Title := "a", Completed := false }], nextID := 2, fault := none }

/-- The world before anything happened. -/
def emptyWorld : World := { store := emptyStore, cache := emptyCache, trace := [] }

/-- One stored task, nothing cached, everything working. -/
def oneTaskWorld : World := { store := oneTaskStore, cache := emptyCache, trace := [] }

/-- Time `d` passing between two calls: the cache's clock moves on, nothing else changes. -/
def World.laterBy (w : World) (d : Nat) : World := { w with cache := w.cache.advance d }

/-- What the cache answers the repository's read of task `id`: `Get` on the item
key, deserialized into a task. -/
def World.cachedTask (w : World) (id : Int) : Except GoError Task :=
  w.cache.Get (itemKey id) >>= Payload.asTask

/-- What the cache answers the repository's read of the list: `Get` on the list
key, deserialized into a list of tasks. -/
def World.cachedTasks (w : World) : Except GoError (List Task) :=
  w.cache.Get tasksCacheKey >>= Payload.asTasks

/-! ## The store alone

What each repository operation comes to when only its store statement and the
handling of that statement's outcome are kept: the reference the behaviour with
an unusable cache is compared with. -/

/-- The store alone, create: the INSERT; its error wrapped, or the id assigned. -/
def StoreOnly.CreateTask (s : Store) (task : Task) : (Task × Option GoError) × Store :=
  match (s.insertReturningID task.Title task.Completed).1 with
  | .error err =>
    ((task, some (.wrapf "failed to create task: " err)),
      (s.insertReturningID task.Title task.Completed).2)
  | .ok id =>
    (({ task with ID := id }, none), (s.insertReturningID task.Title task.Completed).2)

/-- The store alone, point lookup: the SELECT by id; its error wrapped, or the row. -/
def StoreOnly.GetTaskByID (s : Store) (id : Int) : Option Task × Option GoError :=
  match s.selectByID id with
  | .error err => (none, some (.wrapf "failed to get task: " err))
  | .ok task => (some task, none)

/-- The store alone, update: the UPDATE; its error wrapped, "task not found" when
no row was affected. -/
def StoreOnly.UpdateTask (s : Store) (task : Task) : Option GoError × Store :=
  match (s.update task.Title task.Completed task.ID).1 with
  | .error err =>
    (some (.wrapf "failed to update task: " err), (s.update task.Title task.Completed task.ID).2)
  | .ok rowsAffected =>
    (if rowsAffected = 0 then some (.new "task not found") else none,
      (s.update task.Title task.Completed task.ID).2)

/-- The store alone, delete: the DELETE; its error wrapped, "task not found" when
no row was affected. -/
def StoreOnly.DeleteTask (s : Store) (id : Int) : Option GoError × Store :=
  match (s.delete id).1 with
  | .error err => (some (.wrapf "failed to delete task: " err), (s.delete id).2)
  | .ok rowsAffected =>
    (if rowsAffected = 0 then some (.new "task not found") else none, (s.delete id).2)

/-- A store whose every statement fails: the connection is refused. -/
def downStore : Store :=
  { rows := [{ ID := 1, Title := "a", Completed := false }], nextID := 2,
    fault := some (.new "connection refused") }

/-- A cache on which every operation fails. -/
def downCache : Cache :=
  { entries := [{ key := "task:1", val := .task { ID := 1, Title := "stale", Completed := true },
                  expiresAt := 100 }],
    now := 0,
    getErr := some (.new "dial tcp: connection refused"),
    setErr := some (.new "dial tcp: connection refused"),
    delErr := some (.new "dial tcp: connection refused") }

/-- One stored task behind a cache that is unreachable. -/
def cacheDownWorld : World := { store := oneTaskStore, cache := downCache, trace := [] }

/-- A store that is unreachable behind a working, empty cache. -/
def storeDownWorld : World := { store := downStore, cache := emptyCache, trace := [] }

/-- Whether the cache cannot make the list read differ from the store: the read
of the list key fails or misses, or it yields exactly the rows of the store. -/
def World.listCoherent (w : World) : Bool :=
  match w.cachedTasks with
  | .ok ts => ts == w.store.rows
  | .error _ => true

/-- Whether the cache cannot make the read of task `id` differ from the store:
the read of the item key fails or misses, or it yields exactly the row the
store has for `id`. -/
def World.itemCoherent (w : World) (id : Int) : Bool :=
  match w.cachedTask id with
  | .ok t =>
    match w.store.selectByID id with
    | .ok r => t == r
    | .error _ => false
  | .error _ => true

/-- One stored task, cached under its item key and in the cached list, everything working. -/
def warmWorld : World :=
  { store := oneTaskStore,
    cache := { emptyCache with entries :=
      [{ key := "task:1", val := .task { ID := 1, Title := "a", Completed := false },
         expiresAt := 100 },
       { key := "tasks:all", val := .tasks [{ ID := 1, Title := "a", Completed := false }],
         expiresAt := 100 }] },
    trace := [] }

/-- One stored open task behind a cache whose item entry says the task is completed. -/
def staleWorld : World :=
  { store := oneTaskStore,
    cache := { emptyCache with entries :=
      [{ key := "task:1", val := .task { ID := 1, Title := "a", Completed := true },
         expiresAt := 100 }] },
    trace := [] }

/-- One stored task behind an empty cache whose `Get` and `Set` work and whose
`Delete` times out. -/
def deleteFailsWorld : World :=
  { store := oneTaskStore,
    cache := { emptyCache with delErr := some (.new "i/o timeout") },
    trace := [] }

/-- No stored task behind an empty cache whose `Get` and `Set` work and whose
`Delete` times out. -/
def deleteFailsEmptyWorld : World :=
  { store := emptyStore,
    cache := { emptyCache with delErr := some (.new "i/o timeout") },
    trace := [] }

/-! ## The five repository operations as data -/

/-- The operations of the repository. -/
inductive RepoOp where
  | create (task : Task)
  | list
  | get (id : Int)
  | update (task : Task)
  | delete (id : Int)
  deriving DecidableEq, Repr

/-- The `error` result of an operation of the repository. -/
def RepoOp.err (w : World) : RepoOp → Option GoError
  | .create task => (TaskRepository.CreateTask w task).1.2
  | .list => (TaskRepository.GetTasks w).1.2
  | .get id => (TaskRepository.GetTaskByID w id).1.2
  | .update task => (TaskRepository.UpdateTask w task).1
  | .delete id => (TaskRepository.DeleteTask w id).1

/-- The error, if any, that the store call of an operation returns
(`QueryRow(...).Scan`, `Query` or `Exec`). -/
def RepoOp.storeErr (s : Store) : RepoOp → Option GoError
  | .create task =>
    match (s.insertReturningID task.Title task.Completed).1 with
    | .error e => some e
    | .ok _ => none
  | .list =>
    match s.selectAll with
    | .error e => some e
    | .ok _ => none
  | .get id =>
    match s.selectByID id with
    | .error e => some e
    | .ok _ => none
  | .update task =>
    match (s.update task.Title task.Completed task.ID).1 with
    | .error e => some e
    | .ok _ => none
  | .delete id =>
    match (s.delete id).1 with
    | .error e => some e
    | .ok _ => none

/-- Whether an operation sends its statement to the store: a write always, a
read unless the cache answers it. -/
def RepoOp.reachesStore (w : World) : RepoOp → Bool
  | .list =>
    match w.cachedTasks with
    | .ok _ => false
    | .error _ => true
  | .get id =>
    match w.cachedTask id with
    | .ok _ => false
    | .error _ => true
  | _ => true

/-- The text an operation puts in front of a store error (the format string of
its `fmt.Errorf` up to the `%w`). -/
def RepoOp.wrapText : RepoOp → String
  | .create _ => "failed to create task: "
  | .list => "failed to query tasks: "
  | .get _ => "failed to get task: "
  | .update _ => "failed to update task: "
  | .delete _ => "failed to delete task: "

/-! ## internal/service/mocks/task_repository.go -/

/-- A call recorded by the mock: the method and its arguments. -/
inductive MockCall where
  | CreateTask (task : Task)
  | GetTasks
  | GetTaskByID (id : Int)
  | UpdateTask (task : Task)
  | DeleteTask (id : Int)
  deriving DecidableEq, Repr

/-- The testify mock `mocks.TaskRepository`: the calls recorded so far (oldest
first) and, for each method, the return values programmed for it with
`On(...).Return(...)`.  Each method records its call and returns the programmed
values; it does not touch the task it is given. -/
structure MockRepository where
  calls : List MockCall
  onCreateTask : Option GoError
  onGetTasks : List Task × Option GoError
  onGetTaskByID : Option Task × Option GoError
  onUpdateTask : Option GoError
  onDeleteTask : Option GoError
  deriving DecidableEq, Repr

/-- The mock as the service's `TaskRepository`. -/
def mockRepo : TaskRepositoryPort MockRepository where
  CreateTask := fun m task =>
    ((task, m.onCreateTask), { m with calls := m.calls ++ [.CreateTask task] })
  GetTasks := fun m => (m.onGetTasks, { m with calls := m.calls ++ [.GetTasks] })
  GetTaskByID := fun m id => (m.onGetTaskByID, { m with calls := m.calls ++ [.GetTaskByID id] })
  UpdateTask := fun m task => (m.onUpdateTask, { m with calls := m.calls ++ [.UpdateTask task] })
  DeleteTask := fun m id => (m.onDeleteTask, { m with calls := m.calls ++ [.DeleteTask id] })

/-- The service of `setupTest` in `task_test.go`: over the mock, with a logger
that leaves the mock alone. -/
def mockService : TaskService MockRepository where
  repo := mockRepo
  logger := fun m _ _ => m

/-! ## Reading a key back -/

/-- The value of a decimal digit. -/
def digitValue (c : Char) : Nat := c.toNat - '0'.toNat

/-- The number a string of decimal digits denotes. -/
def readNat (cs : List Char) : Nat := cs.foldl (fun acc c => acc * 10 + digitValue c) 0

/-- The integer a decimal numeral with an optional leading minus sign denotes. -/
def readInt (cs : List Char) : Int :=
  match cs with
  | [] => 0
  | c :: rest => if c = '-' then -(readNat rest : Int) else (readNat (c :: rest) : Int)

/-- The identifier an item key was built from: what follows the five characters
of the key's first part, read as a decimal numeral. -/
def itemKeyID (key : String) : Int := readInt (key.data.drop taskCacheKeyPrefix.length)

/-- One stored task behind an empty cache whose `Get` and `Delete` work and whose
`Set` times out. -/
def setFailsWorld : World :=
  { store := oneTaskStore,
    cache := { emptyCache with setErr := some (.new "i/o timeout") },
    trace := [] }

/-- A store that refuses connections behind a cache on which every operation fails. -/
def allDownWorld : World := { store := downStore, cache := downCache, trace := [] }

/-- Two stored tasks in a store whose connection is reset while a multi-row query
is being answered, after the first row; nothing cached, the cache working. -/
def midQueryWorld : World :=
  { store :=
      { rows := [{ ID := 1, Title := "a", Completed := false },
                 { ID := 2, Title := "b", Completed := true }],
        nextID := 3,
        fault := some (.new "connection reset by peer"),
        midQuery := some 1 },
    cache := emptyCache,
    trace := [] }

/-! ## Lemmas on the trace and on the cache model -/

theorem since_of_trace_eq {w w2 : World} {l : List Effect} (h : w2.trace = w.trace ++ l) :
    w2.since w = l := by
  simp [World.since, h]

theorem Cache.mem_of_mem_Delete (c : Cache) (key : String) (e : CacheEntry)
    (h : e ∈ (c.Delete key).2.entries) : e ∈ c.entries := by
  unfold Cache.Delete at h
  cases hd : c.delErr <;> simp [hd] at h
  · exact h.1
  · exact h

theorem Cache.mem_Delete_of_ne (c : Cache) (key : String) (e : CacheEntry)
    (h : e ∈ c.entries) (hk : e.key ≠ key) : e ∈ (c.Delete key).2.entries := by
  unfold Cache.Delete
  cases hd : c.delErr <;> simp [h, hk]

theorem Cache.key_ne_of_mem_Delete (c : Cache) (key : String) (e : CacheEntry)
    (hd : c.delErr = none) (h : e ∈ (c.Delete key).2.entries) : e.key ≠ key := by
  unfold Cache.Delete at h
  simp [hd] at h
  exact h.2

theorem Cache.Delete_now (c : Cache) (key : String) : (c.Delete key).2.now = c.now := by
  unfold Cache.Delete
  cases hd : c.delErr <;> simp

theorem Cache.Delete_delErr (c : Cache) (key : String) : (c.Delete key).2.delErr = c.delErr := by
  unfold Cache.Delete
  cases hd : c.delErr <;> simp [hd]

theorem Cache.Delete_getErr (c : Cache) (key : String) : (c.Delete key).2.getErr = c.getErr := by
  unfold Cache.Delete
  cases hd : c.delErr <;> simp

theorem Cache.Delete_setErr (c : Cache) (key : String) : (c.Delete key).2.setErr = c.setErr := by
  unfold Cache.Delete
  cases hd : c.delErr <;> simp

theorem Cache.live_Delete_of_ne (c : Cache) {k key : String} (h : k ≠ key) :
    (c.Delete key).2.live k = c.live k := by
  unfold Cache.Delete
  cases hd : c.delErr
  · simp only [Cache.live, List.find?_filter]
    congr 2
    funext e
    by_cases hek : e.key = k
    · have : e.key ≠ key := by rw [hek]; exact h
      simp [hek, this, h]
    · simp [hek]
  · rfl

theorem Cache.live_Delete_self (c : Cache) (key : String) (hd : c.delErr = none) :
    (c.Delete key).2.live key = none := by
  unfold Cache.Delete
  simp only [hd, Cache.live, List.find?_filter]
  rw [Option.map_eq_none', List.find?_eq_none]
  intro e _
  by_cases hek : e.key = key <;> simp [hek]

theorem Cache.Get_Delete_of_ne (c : Cache) {k key : String} (h : k ≠ key) :
    (c.Delete key).2.Get k = c.Get k := by
  simp only [Cache.Get, Cache.Delete_getErr, Cache.live_Delete_of_ne c h]

/-! ## Lemmas on the repository's writes -/

theorem invalidateBoth_store (w : World) (id : Int) : (invalidateBoth w id).store = w.store := by
  unfold invalidateBoth World.cacheDelete World.log World.emit
  cases h1 : (w.cache.Delete (itemKey id)).1 <;> simp only [h1] <;>
    split <;> rfl

theorem invalidateBoth_cache (w : World) (id : Int) :
    (invalidateBoth w id).cache = ((w.cache.Delete (itemKey id)).2.Delete tasksCacheKey).2 := by
  unfold invalidateBoth World.cacheDelete World.log World.emit
  cases h1 : (w.cache.Delete (itemKey id)).1 <;> simp only [h1] <;>
    split <;> rfl

theorem invalidateBoth_trace (w : World) (id : Int) :
    ∃ l, (invalidateBoth w id).trace = w.trace ++ l ∧
      l.filter Effect.isCache = [.cacheDelete (itemKey id), .cacheDelete tasksCacheKey] ∧
      l.filter Effect.isStore = [] := by
  unfold invalidateBoth World.cacheDelete World.log World.emit
  cases h1 : (w.cache.Delete (itemKey id)).1 <;> simp only [h1] <;> split <;>
    simp only [List.append_assoc] <;>
    exact ⟨_, rfl, by simp [Effect.isCache], by simp [Effect.isStore]⟩

/-- A write whose store mutation does not succeed returns an error, leaves the
store's answer as the only call made, and does not touch the cache. -/
theorem WriteOp.run_of_not_storeSucceeds (w : World) (op : WriteOp)
    (h : op.storeSucceeds w.store = false) :
    (op.run w).1 ≠ none ∧ (op.run w).2.cache = w.cache ∧
      ∃ q, (op.run w).2.trace = w.trace ++ [.sql q] := by
  cases op with
  | create task =>
    simp only [WriteOp.storeSucceeds, WriteOp.run, TaskRepository.CreateTask] at h ⊢
    cases hq : (w.store.insertReturningID task.Title task.Completed).1 with
    | error e => simp
    | ok n => simp [hq] at h
  | update task =>
    simp only [WriteOp.storeSucceeds, WriteOp.run, TaskRepository.UpdateTask] at h ⊢
    cases hq : (w.store.update task.Title task.Completed task.ID).1 with
    | error e => simp
    | ok n =>
      have hn : n = 0 := by simpa [hq] using h
      simp [hn]
  | delete id =>
    simp only [WriteOp.storeSucceeds, WriteOp.run, TaskRepository.DeleteTask] at h ⊢
    cases hq : (w.store.delete id).1 with
    | error e => simp
    | ok n =>
      have hn : n = 0 := by simpa [hq] using h
      simp [hn]

theorem WriteOp.run_of_storeSucceeds (w : World) (op : WriteOp)
    (h : op.storeSucceeds w.store = true) :
    (op.run w).1 = none ∧ (op.run w).2.store = (op.afterStore w).store ∧
      (op.run w).2.cache = op.documentedKeys.foldl (fun c k => (c.Delete k).2) w.cache ∧
      ∃ l, (op.run w).2.trace = (op.afterStore w).trace ++ l ∧
        l.filter Effect.isCache = op.documentedKeys.map Effect.cacheDelete ∧
        l.filter Effect.isStore = [] := by
  cases op with
  | create task =>
    simp only [WriteOp.storeSucceeds, WriteOp.run, TaskRepository.CreateTask, WriteOp.afterStore,
      WriteOp.documentedKeys, World.cacheDelete, World.log, World.emit] at h ⊢
    cases hq : (w.store.insertReturningID task.Title task.Completed).1 with
    | error e => simp [hq] at h
    | ok n =>
      cases hd : (w.cache.Delete tasksCacheKey).1 <;> simp only [hd] <;>
        refine ⟨by trivial, by trivial, by trivial, ?_⟩ <;> simp only [List.append_assoc] <;>
        exact ⟨_, rfl, by simp [Effect.isCache], by simp [Effect.isStore]⟩
  | update task =>
    simp only [WriteOp.storeSucceeds, WriteOp.run, TaskRepository.UpdateTask, WriteOp.afterStore,
      WriteOp.documentedKeys] at h ⊢
    cases hq : (w.store.update task.Title task.Completed task.ID).1 with
    | error e => simp [hq] at h
    | ok n =>
      have hn : n ≠ 0 := by simpa [hq] using h
      simp only [hn, if_false]
      exact ⟨by trivial, invalidateBoth_store _ _, invalidateBoth_cache _ _, invalidateBoth_trace _ _⟩
  | delete id =>
    simp only [WriteOp.storeSucceeds, WriteOp.run, TaskRepository.DeleteTask, WriteOp.afterStore,
      WriteOp.documentedKeys] at h ⊢
    cases hq : (w.store.delete id).1 with
    | error e => simp [hq] at h
    | ok n =>
      have hn : n ≠ 0 := by simpa [hq] using h
      simp only [hn, if_false]
      exact ⟨by trivial, invalidateBoth_store _ _, invalidateBoth_cache _ _, invalidateBoth_trace _ _⟩

theorem WriteOp.afterStore_trace (w : World) (op : WriteOp) :
    ∃ q, (op.afterStore w).trace = w.trace ++ [.sql q] := by
  cases op <;> exact ⟨_, rfl⟩

theorem WriteOp.storeSucceeds_of_run (w : World) (op : WriteOp) (hok : (op.run w).1 = none) :
    op.storeSucceeds w.store = true := by
  cases h : op.storeSucceeds w.store
  · exact absurd hok (WriteOp.run_of_not_storeSucceeds w op h).1
  · rfl

/-! ## The claims -/

/-- C1 (the code does not do this): an empty title is not rejected.  `Validate`
would reject the task, but `TaskService.CreateTask` never calls it: for the
title "" the service sends the INSERT to the store, the store is left as that
INSERT leaves it, the error returned is the one of the INSERT alone (none when
the store works), and the handler's state is that of the service call. -/
theorem C1_empty_title_reaches_store (w : World) :
    Task.Validate { ID := 0, Title := "", Completed := false } = some (.new "title is required") ∧
    Effect.sql sqlInsert ∈ (service.CreateTask w "").2.since w ∧
    (service.CreateTask w "").2.store = (w.store.insertReturningID "" false).2 ∧
    (service.CreateTask w "").1 =
      (match (w.store.insertReturningID "" false).1 with
        | .ok _ => none
        | .error e => some (.wrapf "failed to create task: " e)) ∧
    (TaskHandler.CreateTask service w (.ok { ID := 0, Title := "", Completed := false })).2 =
      (service.CreateTask w "").2 ∧
    (service.CreateTask emptyWorld "").1 = none ∧
    (service.CreateTask emptyWorld "").2.store.rows = [{ ID := 1, Title := "", Completed := false }] ∧
    ((service.CreateTask emptyWorld "").2.since emptyWorld).filter Effect.isCache =
      [.cacheDelete tasksCacheKey] ∧
    (TaskHandler.CreateTask service emptyWorld
      (.ok { ID := 0, Title := "", Completed := false })).1.status = StatusCreated := by
  refine ⟨by decide, ?_, ?_, ?_, ?_, by decide, by decide, by decide, by decide⟩
  · simp only [service, postgresRepo, TaskService.CreateTask, TaskRepository.CreateTask,
      World.log, World.emit, World.cacheDelete, Store.insertReturningID, Cache.Delete, World.since]
    cases hf : w.store.fault <;> cases hd : w.cache.delErr <;> simp
  · simp only [service, postgresRepo, TaskService.CreateTask, TaskRepository.CreateTask,
      World.log, World.emit, World.cacheDelete, Store.insertReturningID, Cache.Delete]
    cases hf : w.store.fault <;> cases hd : w.cache.delErr <;> simp
  · simp only [service, postgresRepo, TaskService.CreateTask, TaskRepository.CreateTask,
      World.log, World.emit, World.cacheDelete, Store.insertReturningID, Cache.Delete]
    cases hf : w.store.fault <;> cases hd : w.cache.delErr <;> simp
  · simp only [TaskHandler.CreateTask]
    split <;> rfl

/-- C2: a successful write (`CreateTask`, `UpdateTask`, `DeleteTask`) issues
cache deletes for exactly the documented keys, in that order, and no other cache
operation (in particular no `Set`); a `Get` of any other key answers as before;
every entry under another key is still there; no entry is added; and when the
cache's `Delete` works no entry is left under a documented key. -/
theorem C2_write_invalidates_documented_keys (w : World) (op : WriteOp)
    (hok : (op.run w).1 = none) :
    ((op.run w).2.since w).filter Effect.isCache = op.documentedKeys.map Effect.cacheDelete ∧
    (∀ k, k ∉ op.documentedKeys → (op.run w).2.cache.Get k = w.cache.Get k) ∧
    (∀ e ∈ w.cache.entries, e.key ∉ op.documentedKeys → e ∈ (op.run w).2.cache.entries) ∧
    (∀ e ∈ (op.run w).2.cache.entries, e ∈ w.cache.entries) ∧
    (w.cache.delErr = none → ∀ e ∈ (op.run w).2.cache.entries, e.key ∉ op.documentedKeys) := by
  have hs := WriteOp.storeSucceeds_of_run w op hok
  obtain ⟨_, _, hc, l, ht, hl, _⟩ := WriteOp.run_of_storeSucceeds w op hs
  obtain ⟨q, hq⟩ := WriteOp.afterStore_trace w op
  refine ⟨?_, ?_, ?_, ?_, ?_⟩
  · rw [since_of_trace_eq (l := [.sql q] ++ l) (by rw [ht, hq, List.append_assoc])]
    simp [hl, Effect.isCache]
  · intro k hk
    rw [hc]
    cases op <;> simp only [WriteOp.documentedKeys, List.mem_cons, List.mem_singleton,
      List.not_mem_nil, or_false, not_or] at hk <;> simp only [WriteOp.documentedKeys, List.foldl]
    · exact Cache.Get_Delete_of_ne _ hk
    · rw [Cache.Get_Delete_of_ne _ hk.2, Cache.Get_Delete_of_ne _ hk.1]
    · rw [Cache.Get_Delete_of_ne _ hk.2, Cache.Get_Delete_of_ne _ hk.1]
  · intro e he hk
    rw [hc]
    cases op <;> simp only [WriteOp.documentedKeys, List.mem_cons, List.mem_singleton,
      List.not_mem_nil, or_false, not_or] at hk <;> simp only [WriteOp.documentedKeys, List.foldl]
    · exact Cache.mem_Delete_of_ne _ _ _ he hk
    · exact Cache.mem_Delete_of_ne _ _ _ (Cache.mem_Delete_of_ne _ _ _ he hk.1) hk.2
    · exact Cache.mem_Delete_of_ne _ _ _ (Cache.mem_Delete_of_ne _ _ _ he hk.1) hk.2
  · intro e he
    rw [hc] at he
    cases op <;> simp only [WriteOp.documentedKeys, List.foldl] at he
    · exact Cache.mem_of_mem_Delete _ _ _ he
    · exact Cache.mem_of_mem_Delete _ _ _ (Cache.mem_of_mem_Delete _ _ _ he)
    · exact Cache.mem_of_mem_Delete _ _ _ (Cache.mem_of_mem_Delete _ _ _ he)
  · intro hd e he
    rw [hc] at he
    cases op <;> simp only [WriteOp.documentedKeys, List.foldl] at he <;>
      simp only [WriteOp.documentedKeys, List.mem_cons, List.mem_singleton,
        List.not_mem_nil, or_false, not_or]
    · exact Cache.key_ne_of_mem_Delete _ _ _ hd he
    · have h2 := Cache.key_ne_of_mem_Delete _ _ _ ((Cache.Delete_delErr _ _).trans hd) he
      exact ⟨Cache.key_ne_of_mem_Delete _ _ _ hd (Cache.mem_of_mem_Delete _ _ _ he), h2⟩
    · have h2 := Cache.key_ne_of_mem_Delete _ _ _ ((Cache.Delete_delErr _ _).trans hd) he
      exact ⟨Cache.key_ne_of_mem_Delete _ _ _ hd (Cache.mem_of_mem_Delete _ _ _ he), h2⟩

/-- C2 at a concrete state: updating the stored task `1` succeeds. -/
theorem C2_write_invalidates_documented_keys_witness :
    ((WriteOp.update { ID := 1, Title := "a", Completed := true }).run oneTaskWorld).1 = none ∧
    (((WriteOp.update { ID := 1, Title := "a", Completed := true }).run oneTaskWorld).2.since
        oneTaskWorld).filter Effect.isCache = [.cacheDelete "task:1", .cacheDelete "tasks:all"] :=
  ⟨by decide,
    (C2_write_invalidates_documented_keys oneTaskWorld
      (.update { ID := 1, Title := "a", Completed := true }) (by decide)).1⟩

/-- C3: a write whose store mutation does not succeed (the statement returns an
error, or an update or delete affects no row) returns an error and performs no
cache operation, so the cache is as it was; on a working store the error of a
delete (which then matched no row) is "task not found". -/
theorem C3_failed_store_mutation_leaves_cache (w : World) (op : WriteOp)
    (hfail : op.storeSucceeds w.store = false) :
    (op.run w).1 ≠ none ∧
    (op.run w).2.cache = w.cache ∧
    ((op.run w).2.since w).filter Effect.isCache = [] ∧
    (∀ id, op = .delete id → w.store.fault = none →
      (∀ t ∈ w.store.rows, t.ID ≠ id) ∧ (op.run w).1 = some (.new "task not found")) := by
  obtain ⟨h1, h2, q, h3⟩ := WriteOp.run_of_not_storeSucceeds w op hfail
  refine ⟨h1, h2, ?_, ?_⟩
  · rw [since_of_trace_eq h3]
    simp [Effect.isCache]
  · intro id hop hf
    subst hop
    simp only [WriteOp.storeSucceeds, Store.delete, hf] at hfail
    have h0 : w.store.rows.countP (fun t => t.ID == id) = 0 := by simpa using hfail
    refine ⟨?_, ?_⟩
    · intro t ht
      have := (List.countP_eq_zero.mp h0) t ht
      simpa using this
    · simp [WriteOp.run, TaskRepository.DeleteTask, Store.delete, hf, h0]

/-- C3 at a concrete state: deleting id `7` from a store that has only task `1`. -/
theorem C3_failed_store_mutation_leaves_cache_witness :
    (WriteOp.delete 7).storeSucceeds oneTaskWorld.store = false ∧
    ((WriteOp.delete 7).run oneTaskWorld).1 = some (.new "task not found") ∧
    ((WriteOp.delete 7).run oneTaskWorld).2.cache = oneTaskWorld.cache :=
  ⟨by decide,
    ((C3_failed_store_mutation_leaves_cache oneTaskWorld (.delete 7) (by decide)).2.2.2 7 rfl rfl).2,
    (C3_failed_store_mutation_leaves_cache oneTaskWorld (.delete 7) (by decide)).2.1⟩

/-! ## Lemmas on the repository's reads -/

theorem foldl_append_singleton (rows : List Task) :
    rows.foldl (fun acc task => acc ++ [task]) [] = rows := by
  have h : ∀ (l acc : List Task), l.foldl (fun acc task => acc ++ [task]) acc = acc ++ l := by
    intro l
    induction l with
    | nil => intro acc; simp
    | cons a l ih => intro acc; simp [ih]
  simpa using h rows []

/-- A cache hit on the item key: the cached task is returned, the store is not
asked, and nothing changes but the trace. -/
theorem GetTaskByID_of_hit (w : World) (id : Int) (t : Task) (h : w.cachedTask id = .ok t) :
    TaskRepository.GetTaskByID w id =
      ((some t, none),
        { w with trace := w.trace ++
            [.cacheGet (itemKey id), .log .debug "task retrieved from cache"] }) := by
  unfold World.cachedTask at h
  simp [TaskRepository.GetTaskByID, World.cacheGetTask, h, World.log, World.emit]

/-- No hit on the item key, and the store has no answer: the store's error, wrapped. -/
theorem GetTaskByID_of_miss_error (w : World) (id : Int) (e err : GoError)
    (h : w.cachedTask id = .error e) (hs : w.store.selectByID id = .error err) :
    TaskRepository.GetTaskByID w id =
      ((none, some (.wrapf "failed to get task: " err)),
        { w with trace := w.trace ++ [.cacheGet (itemKey id), .sql sqlSelectByID] }) := by
  unfold World.cachedTask at h
  simp [TaskRepository.GetTaskByID, World.cacheGetTask, h, World.emit, hs]

/-- No hit on the item key, and the store has the row: the row is returned and a
`Set` of the item key is attempted. -/
theorem GetTaskByID_of_miss_ok (w : World) (id : Int) (e : GoError) (t : Task)
    (h : w.cachedTask id = .error e) (hs : w.store.selectByID id = .ok t) :
    (TaskRepository.GetTaskByID w id).1 = (some t, none) ∧
    (TaskRepository.GetTaskByID w id).2.store = w.store ∧
    (TaskRepository.GetTaskByID w id).2.cache = (w.cache.Set (itemKey id) (.task t) cacheDuration).2 ∧
    ∃ l, (TaskRepository.GetTaskByID w id).2.trace =
        w.trace ++ ([.cacheGet (itemKey id), .sql sqlSelectByID,
          .cacheSet (itemKey id) (.task t) cacheDuration] ++ l) ∧
      l.filter Effect.isCache = [] ∧ l.filter Effect.isStore = [] ∧
      (w.cache.setErr = none → l = []) := by
  unfold World.cachedTask at h
  simp only [TaskRepository.GetTaskByID, World.cacheGetTask, h, World.emit, hs, World.cacheSet,
    World.log, Cache.Set]
  cases hse : w.cache.setErr <;> simp [Effect.isCache, Effect.isStore]

theorem Cache.live_Set_self (c : Cache) (key : String) (v : Payload) (ttl d : Nat)
    (hs : c.setErr = none) (hd : d < ttl) :
    ((c.Set key v ttl).2.advance d).live key = some v := by
  simp [Cache.Set, hs, Cache.advance, Cache.live, hd]

theorem Cache.live_Set_expired (c : Cache) (key : String) (v : Payload) (ttl d : Nat)
    (hs : c.setErr = none) (hd : ttl ≤ d) :
    ((c.Set key v ttl).2.advance d).live key = none := by
  simp only [Cache.Set, hs, Cache.advance, Cache.live]
  rw [Option.map_eq_none', List.find?_eq_none]
  intro e he
  simp only [List.mem_cons, List.mem_filter] at he
  rcases he with rfl | ⟨_, hk⟩
  · simp; omega
  · simp at hk
    simp [hk]

theorem Cache.Set_getErr (c : Cache) (key : String) (v : Payload) (ttl : Nat) :
    (c.Set key v ttl).2.getErr = c.getErr := by
  unfold Cache.Set
  cases hs : c.setErr <;> rfl

theorem cachedTask_of_live (w : World) (id : Int) (t : Task) (hg : w.cache.getErr = none)
    (hl : w.cache.live (itemKey id) = some (.task t)) : w.cachedTask id = .ok t := by
  simp only [World.cachedTask, Cache.Get, hg, hl]
  rfl

theorem cachedTask_of_not_live (w : World) (id : Int) (hg : w.cache.getErr = none)
    (hl : w.cache.live (itemKey id) = none) : w.cachedTask id = .error ErrCacheMiss := by
  simp only [World.cachedTask, Cache.Get, hg, hl]
  rfl

theorem Cache.Get_error_of_live_none (c : Cache) (key : String) (h : c.live key = none) :
    ∃ e, c.Get key = .error e := by
  unfold Cache.Get
  cases c.getErr with
  | some e => exact ⟨e, rfl⟩
  | none => exact ⟨ErrCacheMiss, by simp [h]⟩

theorem Cache.Get_of_getErr (c : Cache) (key : String) (e : GoError) (hg : c.getErr = some e) :
    c.Get key = .error e := by
  simp only [Cache.Get, hg]

theorem Cache.live_advance_none (c : Cache) (key : String) (d : Nat) (h : c.live key = none) :
    (c.advance d).live key = none := by
  simp only [Cache.live, Cache.advance, Option.map_eq_none', List.find?_eq_none] at h ⊢
  intro e he
  have := h e he
  simp only [Bool.and_eq_true, decide_eq_true_eq, not_and, beq_iff_eq] at this ⊢
  intro hk
  have := this hk
  omega

theorem cachedTask_error_of_live_none (w : World) (id : Int)
    (h : w.cache.live (itemKey id) = none) : ∃ e, w.cachedTask id = .error e := by
  obtain ⟨e, he⟩ := Cache.Get_error_of_live_none w.cache (itemKey id) h
  exact ⟨e, by simp [World.cachedTask, he, bind, Except.bind]⟩

theorem cachedTask_error_of_getErr (w : World) (id : Int) (e : GoError)
    (h : w.cache.getErr = some e) : w.cachedTask id = .error e := by
  simp [World.cachedTask, Cache.Get_of_getErr _ _ e h, bind, Except.bind]

/-- C4 as stated fails.  Task `1` is stored and the cache, whose `Set` times out,
holds no entry for "task:1": `GetTaskByID(1)` returns the row, but no entry is
set, and a second `GetTaskByID(1)` right after it queries the store again. -/
theorem C4_failed_Set_populates_nothing :
    setFailsWorld.store.selectByID 1 = .ok { ID := 1, Title := "a", Completed := false } ∧
    setFailsWorld.cache.live (itemKey 1) = none ∧
    (TaskRepository.GetTaskByID setFailsWorld 1).1 =
      (some { ID := 1, Title := "a", Completed := false }, none) ∧
    (TaskRepository.GetTaskByID setFailsWorld 1).2.cache.live (itemKey 1) = none ∧
    ((TaskRepository.GetTaskByID (TaskRepository.GetTaskByID setFailsWorld 1).2 1).2.since
        (TaskRepository.GetTaskByID setFailsWorld 1).2).filter Effect.isStore =
      [.sql sqlSelectByID] :=
  ⟨rfl, by decide, by decide, by decide, by decide⟩

/-- C4, amended: when the store has the row `t` for `id` and the cache has no
live entry under "task:<id>", `GetTaskByID(id)` returns `t`, makes exactly one
store lookup, and its cache calls are one `Get` and one `Set` of "task:<id>" to
`t` with a time to live of 5 minutes; the store is untouched.  A second
`GetTaskByID(id)` less than 5 minutes later, with nothing else in between,
returns `t` again.  After the first call `t` is live under the item key exactly
when the cache's `Set` works, and the second call makes no store lookup
exactly when the cache's `Get` and `Set` work; its only calls are then the
cache `Get` and a log entry.  From 5 minutes on nothing is live under the item
key. -/
theorem C4_miss_reads_store_and_attempts_Set (w : World) (id : Int) (t : Task) (d : Nat)
    (hrow : w.store.selectByID id = .ok t)
    (hmiss : w.cache.live (itemKey id) = none)
    (hd : d < cacheDuration) :
    (TaskRepository.GetTaskByID w id).1 = (some t, none) ∧
    ((TaskRepository.GetTaskByID w id).2.since w).filter Effect.isStore = [.sql sqlSelectByID] ∧
    ((TaskRepository.GetTaskByID w id).2.since w).filter Effect.isCache =
      [.cacheGet (itemKey id), .cacheSet (itemKey id) (.task t) cacheDuration] ∧
    cacheDuration = 5 * 60 * 1000000000 ∧
    (TaskRepository.GetTaskByID w id).2.store = w.store ∧
    (TaskRepository.GetTaskByID ((TaskRepository.GetTaskByID w id).2.laterBy d) id).1 =
      (some t, none) ∧
    (((TaskRepository.GetTaskByID ((TaskRepository.GetTaskByID w id).2.laterBy d) id).2.since
        ((TaskRepository.GetTaskByID w id).2.laterBy d)).filter Effect.isStore = [] ↔
      (w.cache.getErr = none ∧ w.cache.setErr = none)) ∧
    ((TaskRepository.GetTaskByID w id).2.cache.live (itemKey id) = some (.task t) ↔
      w.cache.setErr = none) ∧
    ((w.cache.getErr = none ∧ w.cache.setErr = none) →
      (TaskRepository.GetTaskByID ((TaskRepository.GetTaskByID w id).2.laterBy d) id).2.since
          ((TaskRepository.GetTaskByID w id).2.laterBy d) =
        [.cacheGet (itemKey id), .log .debug "task retrieved from cache"]) ∧
    (∀ d2, cacheDuration ≤ d2 →
      ((TaskRepository.GetTaskByID w id).2.laterBy d2).cache.live (itemKey id) = none) := by
  obtain ⟨e0, hm⟩ := cachedTask_error_of_live_none w id hmiss
  obtain ⟨h1, h2, h3, l, h4, hlc, hls, h5⟩ := GetTaskByID_of_miss_ok w id e0 t hm hrow
  have hrow1 : ∀ d1, ((TaskRepository.GetTaskByID w id).2.laterBy d1).store.selectByID id = .ok t := by
    intro d1
    show (TaskRepository.GetTaskByID w id).2.store.selectByID id = .ok t
    rw [h2]
    exact hrow
  have hwork : w.cache.getErr = none → w.cache.setErr = none → ∀ d1, d1 < cacheDuration →
      ((TaskRepository.GetTaskByID w id).2.laterBy d1).cachedTask id = .ok t := by
    intro hget hset d1 hd1
    apply cachedTask_of_live
    · simp only [World.laterBy, Cache.advance, h3, Cache.Set_getErr, hget]
    · simp only [World.laterBy, h3]
      exact Cache.live_Set_self _ _ _ _ _ hset hd1
  have hbroken : ¬(w.cache.getErr = none ∧ w.cache.setErr = none) →
      ∃ e, ((TaskRepository.GetTaskByID w id).2.laterBy d).cachedTask id = .error e := by
    intro hnot
    cases hg : w.cache.getErr with
    | some eg =>
      exact ⟨eg, cachedTask_error_of_getErr _ id eg
        (by simp only [World.laterBy, Cache.advance, h3, Cache.Set_getErr, hg])⟩
    | none =>
      cases hs : w.cache.setErr with
      | none => exact absurd ⟨hg, hs⟩ hnot
      | some es =>
        apply cachedTask_error_of_live_none
        have hsame : (w.cache.Set (itemKey id) (.task t) cacheDuration).2 = w.cache := by
          simp [Cache.Set, hs]
        simp only [World.laterBy, h3, hsame]
        exact Cache.live_advance_none _ _ _ hmiss
  have hsecond : (TaskRepository.GetTaskByID ((TaskRepository.GetTaskByID w id).2.laterBy d) id).1 =
      (some t, none) ∧
      (((TaskRepository.GetTaskByID ((TaskRepository.GetTaskByID w id).2.laterBy d) id).2.since
        ((TaskRepository.GetTaskByID w id).2.laterBy d)).filter Effect.isStore = [] ↔
      (w.cache.getErr = none ∧ w.cache.setErr = none)) := by
    by_cases hw : w.cache.getErr = none ∧ w.cache.setErr = none
    · have hhit := GetTaskByID_of_hit _ id t (hwork hw.1 hw.2 d hd)
      rw [hhit]
      refine ⟨rfl, ?_⟩
      rw [since_of_trace_eq rfl]
      simp [Effect.isStore, hw]
    · obtain ⟨e1, he1⟩ := hbroken hw
      obtain ⟨k1, _, _, l2, k4, _, kls, _⟩ := GetTaskByID_of_miss_ok _ id e1 t he1 (hrow1 d)
      refine ⟨k1, ?_⟩
      rw [since_of_trace_eq k4]
      simp [Effect.isStore, kls, hw]
  refine ⟨h1, ?_, ?_, by decide, h2, hsecond.1, hsecond.2, ?_, ?_, ?_⟩
  · rw [since_of_trace_eq h4]
    simp [Effect.isStore, hls]
  · rw [since_of_trace_eq h4]
    simp [Effect.isCache, hlc]
  · rw [h3]
    cases hs : w.cache.setErr with
    | none =>
      have := Cache.live_Set_self w.cache (itemKey id) (.task t) cacheDuration 0 hs (by decide)
      simpa [Cache.advance] using this
    | some es =>
      have hsame : (w.cache.Set (itemKey id) (.task t) cacheDuration).2 = w.cache := by
        simp [Cache.Set, hs]
      simp [hsame, hmiss]
  · rintro ⟨hget, hset⟩
    rw [GetTaskByID_of_hit _ id t (hwork hget hset d hd)]
    exact since_of_trace_eq rfl
  · intro d2 hd2
    simp only [World.laterBy, h3]
    cases hs : w.cache.setErr with
    | none => exact Cache.live_Set_expired _ _ _ _ _ hs hd2
    | some es =>
      have hsame : (w.cache.Set (itemKey id) (.task t) cacheDuration).2 = w.cache := by
        simp [Cache.Set, hs]
      rw [hsame]
      exact Cache.live_advance_none _ _ _ hmiss

/-- C4 amended, at a concrete state: task `1` is stored and nothing is cached. -/
theorem C4_miss_reads_store_and_attempts_Set_witness :
    (TaskRepository.GetTaskByID oneTaskWorld 1).1 =
      (some { ID := 1, Title := "a", Completed := false }, none) ∧
    (TaskRepository.GetTaskByID ((TaskRepository.GetTaskByID oneTaskWorld 1).2.laterBy 1000) 1).1 =
      (some { ID := 1, Title := "a", Completed := false }, none) :=
  ⟨(C4_miss_reads_store_and_attempts_Set oneTaskWorld 1
      { ID := 1, Title := "a", Completed := false } 1000 rfl (by decide) (by decide)).1,
    (C4_miss_reads_store_and_attempts_Set oneTaskWorld 1
      { ID := 1, Title := "a", Completed := false } 1000 rfl (by decide) (by decide)).2.2.2.2.2.1⟩

/-- C5 as stated fails.  Behind a cache on which every operation fails,
`DeleteTask(7)` on a working store without row `7` returns an error although
the store's DELETE reports none, and `GetTaskByID(1)` on a store that refuses
connections returns not the store's error but a new error that wraps it. -/
theorem C5_unusable_cache_error_is_not_the_stores :
    (cacheDownWorld.store.delete 7).1 = .ok 0 ∧
    (TaskRepository.DeleteTask cacheDownWorld 7).1 = some (.new "task not found") ∧
    allDownWorld.store.selectByID 1 = .error (.new "connection refused") ∧
    (TaskRepository.GetTaskByID allDownWorld 1).1.2 =
      some (.wrapf "failed to get task: " (.new "connection refused")) ∧
    (TaskRepository.GetTaskByID allDownWorld 1).1.2 ≠ some (.new "connection refused") :=
  ⟨rfl, by decide, rfl, by decide, by decide⟩

/-- C5, amended: when the cache fails on every `Get`, `Set` and `Delete`, each
repository operation returns the value its store statement yields, fails
exactly when that statement returns an error or, for an update or delete,
affects no row, and then returns the statement's error behind the operation's
text, or "task not found"; it leaves the store as the statement alone leaves
it and the cache as it was.  No cache error reaches the caller and a store
success is never reported as a failure.  For `GetTasks` this is stated for a
query the store refuses and for a query the store answers in full. -/
theorem C5_unusable_cache_is_invisible (w : World) (task : Task) (id : Int) (eg es ed : GoError)
    (hg : w.cache.getErr = some eg) (hs : w.cache.setErr = some es)
    (hd : w.cache.delErr = some ed) :
    ((TaskRepository.CreateTask w task).1, (TaskRepository.CreateTask w task).2.store) =
      StoreOnly.CreateTask w.store task ∧
    (∀ e, w.store.selectAll = .error e →
      (TaskRepository.GetTasks w).1 = ([], some (.wrapf "failed to query tasks: " e))) ∧
    (∀ rows, w.store.selectAll = .ok (rows, none) →
      (TaskRepository.GetTasks w).1 = (rows, none)) ∧
    (TaskRepository.GetTasks w).2.store = w.store ∧
    ((TaskRepository.GetTaskByID w id).1, (TaskRepository.GetTaskByID w id).2.store) =
      (StoreOnly.GetTaskByID w.store id, w.store) ∧
    ((TaskRepository.UpdateTask w task).1, (TaskRepository.UpdateTask w task).2.store) =
      StoreOnly.UpdateTask w.store task ∧
    ((TaskRepository.DeleteTask w id).1, (TaskRepository.DeleteTask w id).2.store) =
      StoreOnly.DeleteTask w.store id ∧
    (TaskRepository.CreateTask w task).2.cache = w.cache ∧
    (TaskRepository.GetTasks w).2.cache = w.cache ∧
    (TaskRepository.GetTaskByID w id).2.cache = w.cache ∧
    (TaskRepository.UpdateTask w task).2.cache = w.cache ∧
    (TaskRepository.DeleteTask w id).2.cache = w.cache := by
  refine ⟨?_, ?_, ?_, ?_, ?_, ?_, ?_, ?_, ?_, ?_, ?_, ?_⟩
  · simp only [TaskRepository.CreateTask, StoreOnly.CreateTask, World.cacheDelete, World.log,
      World.emit, Cache.Delete, hd]
    cases (w.store.insertReturningID task.Title task.Completed).1 <;> rfl
  · intro e he
    simp only [TaskRepository.GetTasks, World.cacheGetTasks, World.cacheSet,
      World.log, World.emit, Cache.Get, Cache.Set, hg, hs, he]
    rfl
  · intro rows hr
    simp only [TaskRepository.GetTasks, World.cacheGetTasks, World.cacheSet,
      World.log, World.emit, Cache.Get, Cache.Set, hg, hs, hr, foldl_append_singleton]
    rfl
  · simp only [TaskRepository.GetTasks, World.cacheGetTasks, World.cacheSet,
      World.log, World.emit, Cache.Get, Cache.Set, hg, hs]
    cases w.store.selectAll <;> rfl
  · simp only [TaskRepository.GetTaskByID, StoreOnly.GetTaskByID, World.cacheGetTask,
      World.cacheSet, World.log, World.emit, Cache.Get, Cache.Set, hg, hs]
    cases w.store.selectByID id <;> rfl
  · simp only [TaskRepository.UpdateTask, StoreOnly.UpdateTask]
    cases (w.store.update task.Title task.Completed task.ID).1 with
    | error e => rfl
    | ok n => by_cases hn : n = 0 <;> simp [hn, invalidateBoth_store]
  · simp only [TaskRepository.DeleteTask, StoreOnly.DeleteTask]
    cases (w.store.delete id).1 with
    | error e => rfl
    | ok n => by_cases hn : n = 0 <;> simp [hn, invalidateBoth_store]
  · simp only [TaskRepository.CreateTask, World.cacheDelete, World.log,
      World.emit, Cache.Delete, hd]
    cases (w.store.insertReturningID task.Title task.Completed).1 <;> rfl
  · simp only [TaskRepository.GetTasks, World.cacheGetTasks, World.cacheSet,
      World.log, World.emit, Cache.Get, Cache.Set, hg, hs]
    cases w.store.selectAll <;> rfl
  · simp only [TaskRepository.GetTaskByID, World.cacheGetTask,
      World.cacheSet, World.log, World.emit, Cache.Get, Cache.Set, hg, hs]
    cases w.store.selectByID id <;> rfl
  · simp only [TaskRepository.UpdateTask]
    cases (w.store.update task.Title task.Completed task.ID).1 with
    | error e => rfl
    | ok n => by_cases hn : n = 0 <;> simp [hn, invalidateBoth_cache, Cache.Delete, hd]
  · simp only [TaskRepository.DeleteTask]
    cases (w.store.delete id).1 with
    | error e => rfl
    | ok n => by_cases hn : n = 0 <;> simp [hn, invalidateBoth_cache, Cache.Delete, hd]

/-- C5 amended, at a concrete state: one stored task behind an unreachable cache
that still holds a stale copy of it. -/
theorem C5_unusable_cache_is_invisible_witness :
    (TaskRepository.GetTaskByID cacheDownWorld 1).1 =
      (some { ID := 1, Title := "a", Completed := false }, none) ∧
    (TaskRepository.DeleteTask cacheDownWorld 1).1 = none :=
  ⟨congrArg (fun p => p.1) (C5_unusable_cache_is_invisible cacheDownWorld
      { ID := 1, Title := "a", Completed := true } 1 _ _ _ rfl rfl rfl).2.2.2.2.1,
    congrArg (fun p => p.1) (C5_unusable_cache_is_invisible cacheDownWorld
      { ID := 1, Title := "a", Completed := true } 1 _ _ _ rfl rfl rfl).2.2.2.2.2.2.1⟩

/-! ## Reads through a coherent cache -/

theorem Cache.Set_setErr (c : Cache) (key : String) (v : Payload) (ttl : Nat) :
    (c.Set key v ttl).2.setErr = c.setErr := by
  unfold Cache.Set
  cases hs : c.setErr <;> simp [hs]

theorem Cache.Set_delErr (c : Cache) (key : String) (v : Payload) (ttl : Nat) :
    (c.Set key v ttl).2.delErr = c.delErr := by
  unfold Cache.Set
  cases hs : c.setErr <;> rfl

theorem Cache.Get_Set_self (c : Cache) (key : String) (v : Payload)
    (hs : c.setErr = none) (hg : c.getErr = none) :
    (c.Set key v cacheDuration).2.Get key = .ok v := by
  have h := Cache.live_Set_self c key v cacheDuration 0 hs (by decide)
  have h2 : (c.Set key v cacheDuration).2.live key = some v := by
    simpa [Cache.advance] using h
  simp only [Cache.Get, Cache.Set_getErr, hg, h2]

/-- The answer of the cache for task `id` after a `Set` of its item key: the task
set, or an error. -/
theorem cachedTask_after_Set (w : World) (c : Cache) (id : Int) (t : Task) (e : GoError)
    (hc : c = (w.cache.Set (itemKey id) (.task t) cacheDuration).2)
    (h : w.cachedTask id = .error e) :
    (∃ e2, c.Get (itemKey id) >>= Payload.asTask = .error e2) ∨
      c.Get (itemKey id) >>= Payload.asTask = .ok t := by
  subst hc
  cases hs : w.cache.setErr with
  | some es =>
    left
    have : (w.cache.Set (itemKey id) (.task t) cacheDuration).2 = w.cache := by
      simp [Cache.Set, hs]
    rw [this]
    exact ⟨e, h⟩
  | none =>
    cases hg : w.cache.getErr with
    | some eg =>
      left
      refine ⟨eg, ?_⟩
      rw [Cache.Get_of_getErr _ _ eg (by rw [Cache.Set_getErr, hg])]
      rfl
    | none =>
      right
      rw [Cache.Get_Set_self _ _ _ hs hg]
      rfl

/-- Reading task `id` through a coherent cache: the result is the one of the store
alone, the store is untouched, the cache stays coherent for `id`, and the cache
fails afterwards exactly where it failed before. -/
theorem GetTaskByID_of_itemCoherent (w : World) (id : Int) (h : w.itemCoherent id = true) :
    (TaskRepository.GetTaskByID w id).1 = StoreOnly.GetTaskByID w.store id ∧
    (TaskRepository.GetTaskByID w id).2.store = w.store ∧
    (TaskRepository.GetTaskByID w id).2.itemCoherent id = true ∧
    (TaskRepository.GetTaskByID w id).2.cache.getErr = w.cache.getErr ∧
    (TaskRepository.GetTaskByID w id).2.cache.delErr = w.cache.delErr := by
  cases hc : w.cachedTask id with
  | ok t =>
    rw [GetTaskByID_of_hit w id t hc]
    simp only [World.itemCoherent, hc] at h
    cases hs : w.store.selectByID id with
    | error e => simp [hs] at h
    | ok r =>
      have htr : t = r := by simpa [hs] using h
      subst htr
      refine ⟨?_, rfl, ?_, rfl, rfl⟩
      · simp [StoreOnly.GetTaskByID, hs]
      · simp only [World.itemCoherent, World.cachedTask] at hc ⊢
        simp [hc, hs]
  | error e =>
    cases hs : w.store.selectByID id with
    | error err =>
      rw [GetTaskByID_of_miss_error w id e err hc hs]
      refine ⟨?_, rfl, ?_, rfl, rfl⟩
      · simp [StoreOnly.GetTaskByID, hs]
      · simp only [World.itemCoherent, World.cachedTask] at hc ⊢
        simp [hc]
    | ok t =>
      obtain ⟨h1, h2, h3, _⟩ := GetTaskByID_of_miss_ok w id e t hc hs
      refine ⟨?_, h2, ?_, ?_, ?_⟩
      · rw [h1]
        simp [StoreOnly.GetTaskByID, hs]
      · simp only [World.itemCoherent, World.cachedTask, h2, hs]
        rcases cachedTask_after_Set w _ id t e h3 hc with ⟨e2, he2⟩ | hok
        · simp [he2]
        · simp [hok]
      · rw [h3, Cache.Set_getErr]
      · rw [h3, Cache.Set_delErr]

/-- A cache hit on the list key: the cached list is returned, the store is not
asked, and nothing changes but the trace. -/
theorem GetTasks_of_hit (w : World) (ts : List Task) (h : w.cachedTasks = .ok ts) :
    TaskRepository.GetTasks w =
      ((ts, none),
        { w with trace := w.trace ++
            [.cacheGet tasksCacheKey, .log .debug "tasks retrieved from cache"] }) := by
  unfold World.cachedTasks at h
  simp [TaskRepository.GetTasks, World.cacheGetTasks, h, World.log, World.emit]

/-- No hit on the list key: the list comes from the store, and unless `Query`
returned an error a `Set` of the list key is attempted. -/
theorem GetTasks_of_miss (w : World) (e : GoError) (h : w.cachedTasks = .error e) :
    (TaskRepository.GetTasks w).1 =
      (match w.store.selectAll with
        | .error err => ([], some (.wrapf "failed to query tasks: " err))
        | .ok answer => (answer.1, none)) ∧
    (TaskRepository.GetTasks w).2.store = w.store ∧
    ((TaskRepository.GetTasks w).2.cache = w.cache ∨
      ∃ answer, w.store.selectAll = .ok answer ∧
        (TaskRepository.GetTasks w).2.cache =
          (w.cache.Set tasksCacheKey (.tasks answer.1) cacheDuration).2) ∧
    ∃ l, (TaskRepository.GetTasks w).2.trace =
        w.trace ++ ([.cacheGet tasksCacheKey, .sql sqlSelectAll] ++ l) ∧
      l.filter Effect.isStore = [] := by
  unfold World.cachedTasks at h
  simp only [TaskRepository.GetTasks, World.cacheGetTasks, h, World.emit, World.cacheSet,
    World.log, foldl_append_singleton]
  cases hs : w.store.selectAll with
  | error err => simp
  | ok answer =>
    simp only []
    split <;> simp [Effect.isStore]

/-- Reading the list through a coherent cache of a working store: the result is
the rows of the store, the store is untouched, the cache stays coherent for the
list, and the cache fails afterwards exactly where it failed before. -/
theorem GetTasks_of_listCoherent (w : World) (hf : w.store.fault = none)
    (h : w.listCoherent = true) :
    (TaskRepository.GetTasks w).1 = (w.store.rows, none) ∧
    (TaskRepository.GetTasks w).2.store = w.store ∧
    (TaskRepository.GetTasks w).2.listCoherent = true ∧
    (TaskRepository.GetTasks w).2.cache.getErr = w.cache.getErr ∧
    (TaskRepository.GetTasks w).2.cache.delErr = w.cache.delErr := by
  have hsel : w.store.selectAll = .ok (w.store.rows, none) := by simp [Store.selectAll, hf]
  cases hc : w.cachedTasks with
  | ok ts =>
    rw [GetTasks_of_hit w ts hc]
    simp only [World.listCoherent, hc] at h
    have hts : ts = w.store.rows := by simpa using h
    subst hts
    refine ⟨rfl, rfl, ?_, rfl, rfl⟩
    simp only [World.listCoherent, World.cachedTasks] at hc ⊢
    simp [hc]
  | error e =>
    obtain ⟨h1, h2, h3, _⟩ := GetTasks_of_miss w e hc
    have h1b : (TaskRepository.GetTasks w).1 = (w.store.rows, none) := by
      rw [h1]
      simp [hsel]
    rcases h3 with h3 | ⟨answer, hr, h3⟩
    · refine ⟨h1b, h2, ?_, by rw [h3], by rw [h3]⟩
      simp only [World.listCoherent, World.cachedTasks, h3]
      simp only [World.cachedTasks] at hc
      simp [hc]
    · have hrows : answer = (w.store.rows, none) := by
        rw [hsel] at hr
        injection hr with hr
        exact hr.symm
      subst hrows
      refine ⟨h1b, h2, ?_, by rw [h3, Cache.Set_getErr], by rw [h3, Cache.Set_delErr]⟩
      simp only [World.listCoherent, World.cachedTasks, h3, h2]
      cases hs : w.cache.setErr with
      | some es =>
        have : (w.cache.Set tasksCacheKey (.tasks w.store.rows) cacheDuration).2 = w.cache := by
          simp [Cache.Set, hs]
        rw [this]
        simp only [World.cachedTasks] at hc
        simp [hc]
      | none =>
        cases hg : w.cache.getErr with
        | some eg =>
          rw [Cache.Get_of_getErr _ _ eg (by rw [Cache.Set_getErr, hg])]
          rfl
        | none =>
          rw [Cache.Get_Set_self _ _ _ hs hg]
          simp [bind, Except.bind, Payload.asTasks]

/-! ## The store after a write -/

theorem Store.selectByID_update (s : Store) (task : Task) (n : Nat)
    (h : (s.update task.Title task.Completed task.ID).1 = .ok n) (hn : n ≠ 0) :
    (s.update task.Title task.Completed task.ID).2.fault = none ∧
    (s.update task.Title task.Completed task.ID).2.selectByID task.ID = .ok task := by
  unfold Store.update at h ⊢
  cases hf : s.fault with
  | some e => simp [hf] at h
  | none =>
    simp only [hf] at h ⊢
    have hcount : s.rows.countP (fun t => t.ID == task.ID) ≠ 0 := by
      injection h with h
      rw [h]
      exact hn
    refine ⟨by trivial, ?_⟩
    simp only [Store.selectByID, List.find?_map]
    have hex : ∃ t ∈ s.rows, (t.ID == task.ID) = true := by
      rw [← List.countP_pos_iff]
      omega
    have hfun : ((fun t : Task => t.ID == task.ID) ∘ fun t : Task =>
        if (t.ID == task.ID) = true then
          { t with Title := task.Title, Completed := task.Completed } else t) =
        fun t : Task => t.ID == task.ID := by
      funext t
      by_cases ht : t.ID = task.ID <;> simp [ht]
    rw [hfun]
    cases hfind : s.rows.find? (fun t => t.ID == task.ID) with
    | none =>
      rw [List.find?_eq_none] at hfind
      obtain ⟨t, ht, hp⟩ := hex
      exact absurd hp (hfind t ht)
    | some r =>
      have hr := List.find?_some hfind
      have hid : r.ID = task.ID := by simpa using hr
      cases task
      simp only at hid
      simp [hid]

theorem Store.selectByID_delete (s : Store) (id : Int) (n : Nat)
    (h : (s.delete id).1 = .ok n) :
    (s.delete id).2.fault = none ∧
    (s.delete id).2.selectByID id = .error ErrNoRows ∧
    ∀ t ∈ (s.delete id).2.rows, t.ID ≠ id := by
  unfold Store.delete at h ⊢
  cases hf : s.fault with
  | some e => simp [hf] at h
  | none =>
    simp only [hf]
    refine ⟨by trivial, ?_, ?_⟩
    · simp only [Store.selectByID]
      have : (s.rows.filter (fun t => !(t.ID == id))).find? (fun t => t.ID == id) = none := by
        rw [List.find?_eq_none]
        intro t ht
        simp only [List.mem_filter] at ht
        simpa using ht.2
      rw [this]
    · intro t ht
      simp only [List.mem_filter] at ht
      simpa using ht.2

/-! ## Reads after a write -/

theorem Cache.live_Delete_none (c : Cache) (k key : String) (h : c.live k = none) :
    (c.Delete key).2.live k = none := by
  by_cases hk : k = key
  · subst hk
    cases hd : c.delErr with
    | none => exact Cache.live_Delete_self c k hd
    | some e =>
      have : (c.Delete k).2 = c := by simp [Cache.Delete, hd]
      rw [this]
      exact h
  · rw [Cache.live_Delete_of_ne c hk]
    exact h

theorem listCoherent_of_Get_error (w : World) (e : GoError)
    (h : w.cache.Get tasksCacheKey = .error e) : w.listCoherent = true := by
  simp [World.listCoherent, World.cachedTasks, h, bind, Except.bind]

theorem itemCoherent_of_Get_error (w : World) (id : Int) (e : GoError)
    (h : w.cache.Get (itemKey id) = .error e) : w.itemCoherent id = true := by
  simp [World.itemCoherent, World.cachedTask, h, bind, Except.bind]

/-- After a successful write on a cache whose `Delete` works, the store works and
no documented key can be read from the cache. -/
theorem WriteOp.after_run (w : World) (op : WriteOp) (hd : w.cache.delErr = none)
    (hok : (op.run w).1 = none) :
    (op.run w).2.store.fault = none ∧
    (op.run w).2.cache.getErr = w.cache.getErr ∧
    (op.run w).2.cache.delErr = w.cache.delErr ∧
    ∀ k ∈ op.documentedKeys, ∃ e, (op.run w).2.cache.Get k = .error e := by
  have hs := WriteOp.storeSucceeds_of_run w op hok
  obtain ⟨_, hst, hc, _⟩ := WriteOp.run_of_storeSucceeds w op hs
  refine ⟨?_, ?_, ?_, ?_⟩
  · rw [hst]
    cases op <;> simp only [WriteOp.storeSucceeds, WriteOp.afterStore, Store.insertReturningID,
      Store.update, Store.delete] at hs ⊢ <;> cases hf : w.store.fault <;> simp [hf] at hs ⊢
  · rw [hc]
    cases op <;> simp [WriteOp.documentedKeys, Cache.Delete_getErr]
  · rw [hc]
    cases op <;> simp [WriteOp.documentedKeys, Cache.Delete_delErr]
  · intro k hk
    apply Cache.Get_error_of_live_none
    rw [hc]
    cases op <;> simp only [WriteOp.documentedKeys, List.mem_cons, List.mem_singleton,
      List.not_mem_nil, or_false] at hk <;> simp only [WriteOp.documentedKeys, List.foldl]
    · subst hk
      exact Cache.live_Delete_self _ _ hd
    · rcases hk with rfl | rfl
      · exact Cache.live_Delete_none _ _ _ (Cache.live_Delete_self _ _ hd)
      · exact Cache.live_Delete_self _ _ ((Cache.Delete_delErr _ _).trans hd)
    · rcases hk with rfl | rfl
      · exact Cache.live_Delete_none _ _ _ (Cache.live_Delete_self _ _ hd)
      · exact Cache.live_Delete_self _ _ ((Cache.Delete_delErr _ _).trans hd)

/-- C6: on a cache whose `Delete` works, after a write returned success the next
`GetTasks` returns the rows the store now has, and so does the `GetTasks` after
it; after `UpdateTask(task)` the store's row for the id is `task`, and the next
`GetTaskByID` for that id, and the one after it, return `task`; after
`DeleteTask(id)` the store has no row for `id`, and the next `GetTaskByID(id)`,
and the one after it, fail with the store's no-row error.  No read returns what
the cache held before the write. -/
theorem C6_reads_after_write_are_fresh (w : World) (op : WriteOp)
    (hinv : w.cache.delErr = none) (hok : (op.run w).1 = none) :
    (TaskRepository.GetTasks (op.run w).2).1 = ((op.run w).2.store.rows, none) ∧
    (TaskRepository.GetTasks (TaskRepository.GetTasks (op.run w).2).2).1 =
      ((op.run w).2.store.rows, none) ∧
    (∀ task, op = .update task →
      (op.run w).2.store.selectByID task.ID = .ok task ∧
      (TaskRepository.GetTaskByID (op.run w).2 task.ID).1 = (some task, none) ∧
      (TaskRepository.GetTaskByID (TaskRepository.GetTaskByID (op.run w).2 task.ID).2 task.ID).1 =
        (some task, none)) ∧
    (∀ id, op = .delete id →
      (∀ t ∈ (op.run w).2.store.rows, t.ID ≠ id) ∧
      (TaskRepository.GetTaskByID (op.run w).2 id).1 =
        (none, some (.wrapf "failed to get task: " ErrNoRows)) ∧
      (TaskRepository.GetTaskByID (TaskRepository.GetTaskByID (op.run w).2 id).2 id).1 =
        (none, some (.wrapf "failed to get task: " ErrNoRows))) := by
  obtain ⟨hf, _, _, hkeys⟩ := WriteOp.after_run w op hinv hok
  have hs := WriteOp.storeSucceeds_of_run w op hok
  obtain ⟨_, hst, _, _⟩ := WriteOp.run_of_storeSucceeds w op hs
  have hlist : (op.run w).2.listCoherent = true := by
    obtain ⟨e, he⟩ := hkeys tasksCacheKey (by cases op <;> simp [WriteOp.documentedKeys])
    exact listCoherent_of_Get_error _ e he
  obtain ⟨g1, g2, g3, _, _⟩ := GetTasks_of_listCoherent _ hf hlist
  obtain ⟨g4, _, _, _, _⟩ := GetTasks_of_listCoherent _ (by rw [g2]; exact hf) g3
  refine ⟨g1, by rw [g4, g2], ?_, ?_⟩
  · intro task hop
    subst hop
    obtain ⟨e, he⟩ := hkeys (itemKey task.ID) (by simp [WriteOp.documentedKeys])
    have hcoh := itemCoherent_of_Get_error _ task.ID e he
    obtain ⟨r1, r2, r3, _, _⟩ := GetTaskByID_of_itemCoherent _ task.ID hcoh
    obtain ⟨r4, _, _, _, _⟩ := GetTaskByID_of_itemCoherent _ task.ID r3
    have hsel : ((WriteOp.update task).run w).2.store.selectByID task.ID = .ok task := by
      rw [hst]
      simp only [WriteOp.storeSucceeds] at hs
      cases hq : (w.store.update task.Title task.Completed task.ID).1 with
      | error e => simp [hq] at hs
      | ok n =>
        have hn : n ≠ 0 := by simpa [hq] using hs
        exact (Store.selectByID_update w.store task n hq hn).2
    refine ⟨hsel, ?_, ?_⟩
    · rw [r1]
      simp [StoreOnly.GetTaskByID, hsel]
    · rw [r4, r2]
      simp [StoreOnly.GetTaskByID, hsel]
  · intro id hop
    subst hop
    obtain ⟨e, he⟩ := hkeys (itemKey id) (by simp [WriteOp.documentedKeys])
    have hcoh := itemCoherent_of_Get_error _ id e he
    obtain ⟨r1, r2, r3, _, _⟩ := GetTaskByID_of_itemCoherent _ id hcoh
    obtain ⟨r4, _, _, _, _⟩ := GetTaskByID_of_itemCoherent _ id r3
    have hsel : ((WriteOp.delete id).run w).2.store.selectByID id = .error ErrNoRows ∧
        ∀ t ∈ ((WriteOp.delete id).run w).2.store.rows, t.ID ≠ id := by
      rw [hst]
      simp only [WriteOp.storeSucceeds] at hs
      cases hq : (w.store.delete id).1 with
      | error e => simp [hq] at hs
      | ok n => exact (Store.selectByID_delete w.store id n hq).2
    refine ⟨hsel.2, ?_, ?_⟩
    · rw [r1]
      simp [StoreOnly.GetTaskByID, hsel.1]
    · rw [r4, r2]
      simp [StoreOnly.GetTaskByID, hsel.1]

/-- C6 at a concrete state: task `1` is cached under both keys and is then completed. -/
theorem C6_reads_after_write_are_fresh_witness :
    ((WriteOp.update { ID := 1, Title := "a", Completed := true }).run warmWorld).1 = none ∧
    (TaskRepository.GetTaskByID
      ((WriteOp.update { ID := 1, Title := "a", Completed := true }).run warmWorld).2 1).1 =
      (some { ID := 1, Title := "a", Completed := true }, none) :=
  ⟨by decide,
    ((C6_reads_after_write_are_fresh warmWorld
      (.update { ID := 1, Title := "a", Completed := true }) rfl (by decide)).2.2.1
        { ID := 1, Title := "a", Completed := true } rfl).2.1⟩

/-! ## The toggle -/

theorem Store.update_ok_of_selectByID (s : Store) (id : Int) (t : Task) (title : String)
    (completed : Bool) (h : s.selectByID id = .ok t) :
    t.ID = id ∧ ∃ n, (s.update title completed id).1 = .ok n ∧ n ≠ 0 := by
  unfold Store.selectByID at h
  unfold Store.update
  cases hf : s.fault with
  | some e => simp [hf] at h
  | none =>
    simp only [hf] at h ⊢
    cases hfind : s.rows.find? (fun t => t.ID == id) with
    | none => simp [hfind] at h
    | some r =>
      have hrt : r = t := by simpa [hfind] using h
      subst hrt
      have hp := List.find?_some hfind
      have hm := List.mem_of_find?_eq_some hfind
      refine ⟨by simpa using hp, _, rfl, ?_⟩
      have : 0 < s.rows.countP (fun t => t.ID == id) := List.countP_pos_iff.mpr ⟨r, hm, hp⟩
      omega

/-- One toggle of a stored task read through a coherent cache: it succeeds, the
store's row for the id is the old row with `Completed` negated, the cache fails
afterwards where it failed before, and when `Delete` works the item key cannot
be read afterwards. -/
theorem OpenCloseTask_of_itemCoherent (w : World) (id : Int) (t : Task)
    (hrow : w.store.selectByID id = .ok t) (hcoh : w.itemCoherent id = true) :
    (service.OpenCloseTask w id).1 = .returned none ∧
    (service.OpenCloseTask w id).2.store.selectByID id =
      .ok { t with Completed := !t.Completed } ∧
    (service.OpenCloseTask w id).2.cache.getErr = w.cache.getErr ∧
    (service.OpenCloseTask w id).2.cache.delErr = w.cache.delErr ∧
    (w.cache.delErr = none →
      ∃ e, (service.OpenCloseTask w id).2.cache.Get (itemKey id) = .error e) := by
  obtain ⟨r1, r2, _, r4, r5⟩ := GetTaskByID_of_itemCoherent w id hcoh
  have hr : (TaskRepository.GetTaskByID w id).1 = (some t, none) := by
    rw [r1]
    simp [StoreOnly.GetTaskByID, hrow]
  obtain ⟨hid, n, hn, hn0⟩ := Store.update_ok_of_selectByID w.store id t t.Title (!t.Completed) hrow
  have hsucc : (WriteOp.update { t with Completed := !t.Completed }).storeSucceeds
      (TaskRepository.GetTaskByID w id).2.store = true := by
    simp only [WriteOp.storeSucceeds, r2, hid, hn]
    simpa using hn0
  have hrun := WriteOp.run_of_storeSucceeds _ _ hsucc
  simp only [WriteOp.run] at hrun
  obtain ⟨u1, u2, _, _⟩ := hrun
  have hsel : (TaskRepository.UpdateTask (TaskRepository.GetTaskByID w id).2
      { t with Completed := !t.Completed }).2.store.selectByID id =
      .ok { t with Completed := !t.Completed } := by
    rw [u2]
    simp only [WriteOp.afterStore, r2]
    have := (Store.selectByID_update w.store { t with Completed := !t.Completed } n
      (by simpa [hid] using hn) hn0).2
    simpa [hid] using this
  have hafter := WriteOp.after_run (TaskRepository.GetTaskByID w id).2
    (.update { t with Completed := !t.Completed })
  simp only [WriteOp.run, WriteOp.documentedKeys] at hafter
  have hflags : (TaskRepository.UpdateTask (TaskRepository.GetTaskByID w id).2
      { t with Completed := !t.Completed }).2.cache.getErr = w.cache.getErr ∧
      (TaskRepository.UpdateTask (TaskRepository.GetTaskByID w id).2
      { t with Completed := !t.Completed }).2.cache.delErr = w.cache.delErr := by
    obtain ⟨_, _, hc, _⟩ := WriteOp.run_of_storeSucceeds _ _ hsucc
    simp only [WriteOp.run, WriteOp.documentedKeys, List.foldl] at hc
    rw [hc]
    simp [Cache.Delete_getErr, Cache.Delete_delErr, r4, r5]
  simp only [TaskService.OpenCloseTask, service, postgresRepo, hr, u1, World.log, World.emit]
  refine ⟨by trivial, hsel, hflags.1, hflags.2, ?_⟩
  intro hd
  obtain ⟨_, _, _, hk⟩ := hafter (by rw [r5]; exact hd) u1
  exact hk (itemKey id) (by simp [hid])

/-- C7 as stated fails.  Task `1` is stored open behind an empty cache whose
`Delete` times out: the first `OpenCloseTask(1)` succeeds, completes the stored
task and leaves the copy it has just cached (open) in place; the second
`OpenCloseTask(1)` succeeds, reads that copy, and writes "completed" again, so
the stored flag is not negated and two toggles do not restore the original
task.  Likewise, with everything working but a cached copy that says
"completed" while the stored task is open, a successful toggle leaves the stored
task open. -/
theorem C7_toggle_reads_stale_copy :
    deleteFailsWorld.store.selectByID 1 = .ok { ID := 1, Title := "a", Completed := false } ∧
    (service.OpenCloseTask deleteFailsWorld 1).1 = .returned none ∧
    (service.OpenCloseTask deleteFailsWorld 1).2.store.selectByID 1 =
      .ok { ID := 1, Title := "a", Completed := true } ∧
    (service.OpenCloseTask (service.OpenCloseTask deleteFailsWorld 1).2 1).1 = .returned none ∧
    (service.OpenCloseTask (service.OpenCloseTask deleteFailsWorld 1).2 1).2.store.selectByID 1 =
      .ok { ID := 1, Title := "a", Completed := true } ∧
    staleWorld.store.selectByID 1 = .ok { ID := 1, Title := "a", Completed := false } ∧
    (service.OpenCloseTask staleWorld 1).1 = .returned none ∧
    (service.OpenCloseTask staleWorld 1).2.store.selectByID 1 =
      .ok { ID := 1, Title := "a", Completed := false } :=
  ⟨rfl, by decide, rfl, by decide, rfl, rfl, by decide, rfl⟩

theorem GetTaskByID_store (w : World) (id : Int) :
    (TaskRepository.GetTaskByID w id).2.store = w.store := by
  cases hc : w.cachedTask id with
  | ok t => rw [GetTaskByID_of_hit w id t hc]
  | error e =>
    cases hs : w.store.selectByID id with
    | error err => rw [GetTaskByID_of_miss_error w id e err hc hs]
    | ok t => exact (GetTaskByID_of_miss_ok w id e t hc hs).2.1

theorem Store.selectByID_update_of_ne (s : Store) (title : String) (completed : Bool)
    (id id2 : Int) (hne : id ≠ id2) :
    (s.update title completed id2).2.selectByID id = s.selectByID id := by
  unfold Store.update
  cases hf : s.fault with
  | some e => rfl
  | none =>
    simp only [Store.selectByID, List.find?_map]
    have hfun : ((fun t : Task => t.ID == id) ∘ fun t : Task =>
        if (t.ID == id2) = true then
          { t with Title := title, Completed := completed } else t) =
        fun t : Task => t.ID == id := by
      funext t
      by_cases ht : t.ID = id2 <;> simp [ht]
    rw [hfun, hf]
    cases hfind : s.rows.find? (fun t => t.ID == id) with
    | none => rfl
    | some r =>
      have hr := List.find?_some hfind
      have hid : r.ID = id := by simpa using hr
      have hne2 : ¬ r.ID = id2 := by rw [hid]; exact hne
      simp [hne2]

/-- What a toggle comes to once its read has returned the task `c`: the outcome,
the store and the cache are those of the update with `c` negated. -/
theorem OpenCloseTask_of_read (w : World) (id : Int) (c : Task)
    (hr : (TaskRepository.GetTaskByID w id).1 = (some c, none)) :
    (service.OpenCloseTask w id).1 =
      .returned (TaskRepository.UpdateTask (TaskRepository.GetTaskByID w id).2
        { c with Completed := !c.Completed }).1 ∧
    (service.OpenCloseTask w id).2.store =
      (TaskRepository.UpdateTask (TaskRepository.GetTaskByID w id).2
        { c with Completed := !c.Completed }).2.store ∧
    (service.OpenCloseTask w id).2.cache =
      (TaskRepository.UpdateTask (TaskRepository.GetTaskByID w id).2
        { c with Completed := !c.Completed }).2.cache := by
  simp only [TaskService.OpenCloseTask, service, postgresRepo, hr]
  cases h : (TaskRepository.UpdateTask (TaskRepository.GetTaskByID w id).2
    { c with Completed := !c.Completed }).1 <;> simp [World.log, World.emit]

/-- A successful toggle whose read returned `c`: the store is the one the UPDATE
with `c` negated leaves, and the cache went through the two deletes. -/
theorem OpenCloseTask_ok_of_read (w : World) (id : Int) (c : Task)
    (hr : (TaskRepository.GetTaskByID w id).1 = (some c, none))
    (hok : (service.OpenCloseTask w id).1 = .returned none) :
    (service.OpenCloseTask w id).2.store = (w.store.update c.Title (!c.Completed) c.ID).2 ∧
    (service.OpenCloseTask w id).2.cache =
      (((TaskRepository.GetTaskByID w id).2.cache.Delete (itemKey c.ID)).2.Delete
        tasksCacheKey).2 ∧
    ∃ n, (w.store.update c.Title (!c.Completed) c.ID).1 = .ok n ∧ n ≠ 0 := by
  obtain ⟨a1, a2, a3⟩ := OpenCloseTask_of_read w id c hr
  rw [a1] at hok
  have hu : (TaskRepository.UpdateTask (TaskRepository.GetTaskByID w id).2
      { c with Completed := !c.Completed }).1 = none := by
    injection hok
  have hs := WriteOp.storeSucceeds_of_run (TaskRepository.GetTaskByID w id).2
    (.update { c with Completed := !c.Completed }) hu
  obtain ⟨_, hst, hc, _⟩ := WriteOp.run_of_storeSucceeds _ _ hs
  simp only [WriteOp.run, WriteOp.afterStore, WriteOp.documentedKeys, List.foldl,
    GetTaskByID_store] at hst hc
  refine ⟨by rw [a2, hst], by rw [a3, hc], ?_⟩
  simp only [WriteOp.storeSucceeds, GetTaskByID_store] at hs
  cases hq : (w.store.update c.Title (!c.Completed) c.ID).1 with
  | error e => simp [hq] at hs
  | ok n => exact ⟨n, rfl, by simpa [hq] using hs⟩

theorem itemCoherent_eq_false (w : World) (id : Int) (t : Task)
    (hrow : w.store.selectByID id = .ok t) (h : w.itemCoherent id ≠ true) :
    ∃ c, w.cachedTask id = .ok c ∧ c ≠ t := by
  simp only [World.itemCoherent, hrow] at h
  cases hc : w.cachedTask id with
  | error e => simp [hc] at h
  | ok c =>
    refine ⟨c, rfl, ?_⟩
    simpa [hc] using h

/-- A successful toggle of a stored task negates the stored flag exactly when its
read is not answered by a cached copy that differs from the stored row. -/
theorem OpenCloseTask_flips_iff (w : World) (id : Int) (t : Task)
    (hrow : w.store.selectByID id = .ok t)
    (hok : (service.OpenCloseTask w id).1 = .returned none) :
    (service.OpenCloseTask w id).2.store.selectByID id =
        .ok { ID := t.ID, Title := t.Title, Completed := !t.Completed } ↔
      w.itemCoherent id = true := by
  have hid := (Store.update_ok_of_selectByID w.store id t t.Title t.Completed hrow).1
  constructor
  · intro hflip
    by_contra hcoh
    obtain ⟨c, hc, hne⟩ := itemCoherent_eq_false w id t hrow hcoh
    have hr : (TaskRepository.GetTaskByID w id).1 = (some c, none) := by
      rw [GetTaskByID_of_hit w id c hc]
    obtain ⟨hst, _, n, hn, hn0⟩ := OpenCloseTask_ok_of_read w id c hr hok
    rw [hst] at hflip
    by_cases hcid : c.ID = id
    · have := (Store.selectByID_update w.store { c with Completed := !c.Completed } n hn hn0).2
      simp only [hcid] at this hflip
      rw [this] at hflip
      injection hflip with hflip
      apply hne
      cases c
      cases t
      simp only [Task.mk.injEq] at hflip hcid hid ⊢
      refine ⟨by rw [hcid, hid], hflip.2.1, ?_⟩
      simpa using hflip.2.2
    · rw [Store.selectByID_update_of_ne w.store _ _ id c.ID (fun h => hcid h.symm), hrow] at hflip
      injection hflip with hflip
      cases t
      simp at hflip
  · intro hcoh
    exact (OpenCloseTask_of_itemCoherent w id t hrow hcoh).2.1

theorem Cache.Delete_of_delErr (c : Cache) (key : String) (e : GoError)
    (h : c.delErr = some e) : (c.Delete key).2 = c := by
  simp [Cache.Delete, h]

theorem Cache.Set_of_setErr (c : Cache) (key : String) (v : Payload) (ttl : Nat) (e : GoError)
    (h : c.setErr = some e) : (c.Set key v ttl).2 = c := by
  simp [Cache.Set, h]

theorem itemCoherent_of_stale (w : World) (id : Int) (t r : Task)
    (hc : w.cache.Get (itemKey id) = .ok (.task t)) (hrow : w.store.selectByID id = .ok r)
    (hne : t ≠ r) : w.itemCoherent id ≠ true := by
  simp [World.itemCoherent, World.cachedTask, hc, hrow, bind, Except.bind, Payload.asTask, hne]

/-- After a successful toggle of a stored task whose read was not answered by a
differing copy, the cache can again not make the read differ from the store
exactly when `Delete` works, or `Get` fails, or the read was not answered by
the cache and `Set` fails. -/
theorem itemCoherent_after_toggle (w : World) (id : Int) (t : Task)
    (hrow : w.store.selectByID id = .ok t) (hcoh : w.itemCoherent id = true)
    (hok : (service.OpenCloseTask w id).1 = .returned none) :
    (service.OpenCloseTask w id).2.itemCoherent id = true ↔
      (w.cache.delErr = none ∨ w.cache.getErr ≠ none ∨
        (w.cache.setErr ≠ none ∧ ∃ e, w.cachedTask id = .error e)) := by
  obtain ⟨_, h2, h3, _, h5⟩ := OpenCloseTask_of_itemCoherent w id t hrow hcoh
  have hid := (Store.update_ok_of_selectByID w.store id t t.Title t.Completed hrow).1
  obtain ⟨r1, _, _, _, _⟩ := GetTaskByID_of_itemCoherent w id hcoh
  have hr : (TaskRepository.GetTaskByID w id).1 = (some t, none) := by
    rw [r1]
    simp [StoreOnly.GetTaskByID, hrow]
  obtain ⟨_, hcache, _⟩ := OpenCloseTask_ok_of_read w id t hr hok
  rw [hid] at hcache
  have hne : t ≠ { ID := t.ID, Title := t.Title, Completed := !t.Completed } := by
    intro h
    have := congrArg Task.Completed h
    simp at this
  constructor
  · intro hc1
    by_contra hnot
    simp only [not_or, not_and, not_not, not_exists] at hnot
    obtain ⟨hd, hg, hset⟩ := hnot
    cases hde : w.cache.delErr with
    | none => exact hd hde
    | some ed =>
      apply itemCoherent_of_stale _ id t _ _ h2 hne hc1
      cases hct : w.cachedTask id with
      | ok c =>
        have hct2 : c = t := by
          simp only [World.itemCoherent, hct, hrow] at hcoh
          simpa using hcoh
        subst hct2
        have hw : (TaskRepository.GetTaskByID w id).2.cache = w.cache := by
          rw [GetTaskByID_of_hit w id c hct]
        rw [hcache, hw, Cache.Delete_of_delErr _ _ ed (by rw [Cache.Delete_delErr, hde]),
          Cache.Delete_of_delErr _ _ ed hde]
        simp only [World.cachedTask, Cache.Get, hg] at hct
        simp only [Cache.Get, hg]
        cases hl : w.cache.live (itemKey id) with
        | none => simp [hl, bind, Except.bind] at hct
        | some v =>
          cases v with
          | task x =>
            simp [hl, bind, Except.bind, Payload.asTask] at hct
            rw [hct]
          | tasks xs => simp [hl, bind, Except.bind, Payload.asTask] at hct
      | error e =>
        have hse : w.cache.setErr = none := by
          by_contra hse
          exact hset hse e hct
        have hw := (GetTaskByID_of_miss_ok w id e t hct hrow).2.2.1
        rw [hcache, hw, Cache.Delete_of_delErr _ _ ed
            (by rw [Cache.Delete_delErr, Cache.Set_delErr, hde]),
          Cache.Delete_of_delErr _ _ ed (by rw [Cache.Set_delErr, hde])]
        exact Cache.Get_Set_self _ _ _ hse hg
  · rintro (hd | hg | ⟨hse, e, hct⟩)
    · obtain ⟨e, he⟩ := h5 hd
      exact itemCoherent_of_Get_error _ id e he
    · cases hge : w.cache.getErr with
      | none => exact absurd hge hg
      | some e =>
        exact itemCoherent_of_Get_error _ id e (Cache.Get_of_getErr _ _ e (by rw [h3, hge]))
    · cases hde : w.cache.delErr with
      | none =>
        obtain ⟨e2, he2⟩ := h5 hde
        exact itemCoherent_of_Get_error _ id e2 he2
      | some ed =>
        cases hse2 : w.cache.setErr with
        | none => exact absurd hse2 hse
        | some es =>
          have hw := (GetTaskByID_of_miss_ok w id e t hct hrow).2.2.1
          have hsame : (service.OpenCloseTask w id).2.cache = w.cache := by
            rw [hcache, hw, Cache.Set_of_setErr _ _ _ _ es hse2,
              Cache.Delete_of_delErr _ _ ed (by rw [Cache.Delete_delErr, hde]),
              Cache.Delete_of_delErr _ _ ed hde]
          simp only [World.itemCoherent, World.cachedTask, hsame]
          simp only [World.cachedTask] at hct
          simp [hct]

/-- C7, amended: for a stored task `t` with identifier `id`, a successful
`OpenCloseTask(id)` replaces the stored task's completed flag by its negation,
leaving id and title unchanged, exactly when its cache-aside read is not
answered by a cached copy that differs from the stored row (the read of
"task:<id>" fails or misses, or yields the stored row).  When that is so, a
second successful `OpenCloseTask(id)` right after it leaves the stored task
equal to `t` exactly when the cache's `Delete` works, or its `Get` fails, or
the first read was not answered by the cache and the cache's `Set` fails.
Together: for two successful calls, the first negates the flag and the second
restores `t` exactly when both conditions hold. -/
theorem C7_toggle_flips_exactly_when_read_is_current (w : World) (id : Int) (t : Task)
    (hrow : w.store.selectByID id = .ok t)
    (hok : (service.OpenCloseTask w id).1 = .returned none) :
    t.ID = id ∧
    ((service.OpenCloseTask w id).2.store.selectByID id =
        .ok { ID := t.ID, Title := t.Title, Completed := !t.Completed } ↔
      w.itemCoherent id = true) ∧
    (w.itemCoherent id = true →
      (service.OpenCloseTask (service.OpenCloseTask w id).2 id).1 = .returned none →
      ((service.OpenCloseTask (service.OpenCloseTask w id).2 id).2.store.selectByID id = .ok t ↔
        (w.cache.delErr = none ∨ w.cache.getErr ≠ none ∨
          (w.cache.setErr ≠ none ∧ ∃ e, w.cachedTask id = .error e)))) ∧
    ((service.OpenCloseTask (service.OpenCloseTask w id).2 id).1 = .returned none →
      (((service.OpenCloseTask w id).2.store.selectByID id =
          .ok { ID := t.ID, Title := t.Title, Completed := !t.Completed } ∧
        (service.OpenCloseTask (service.OpenCloseTask w id).2 id).2.store.selectByID id =
          .ok t) ↔
        (w.itemCoherent id = true ∧
          (w.cache.delErr = none ∨ w.cache.getErr ≠ none ∨
            (w.cache.setErr ≠ none ∧ ∃ e, w.cachedTask id = .error e))))) := by
  have hid := (Store.update_ok_of_selectByID w.store id t t.Title t.Completed hrow).1
  have hfirst := OpenCloseTask_flips_iff w id t hrow hok
  have hsecond : w.itemCoherent id = true →
      (service.OpenCloseTask (service.OpenCloseTask w id).2 id).1 = .returned none →
      ((service.OpenCloseTask (service.OpenCloseTask w id).2 id).2.store.selectByID id = .ok t ↔
        (w.cache.delErr = none ∨ w.cache.getErr ≠ none ∨
          (w.cache.setErr ≠ none ∧ ∃ e, w.cachedTask id = .error e))) := by
    intro hcoh hok2
    have h2 := (OpenCloseTask_of_itemCoherent w id t hrow hcoh).2.1
    have hflip := OpenCloseTask_flips_iff _ id _ h2 hok2
    have hback : ({ ID := t.ID, Title := t.Title, Completed := !(!t.Completed) } : Task) = t := by
      cases t
      simp
    simp only [hback] at hflip
    rw [hflip]
    exact itemCoherent_after_toggle w id t hrow hcoh hok
  refine ⟨hid, hfirst, hsecond, ?_⟩
  intro hok2
  constructor
  · rintro ⟨ha, hb⟩
    have hcoh := hfirst.mp ha
    exact ⟨hcoh, (hsecond hcoh hok2).mp hb⟩
  · rintro ⟨hcoh, hx⟩
    exact ⟨hfirst.mpr hcoh, (hsecond hcoh hok2).mpr hx⟩

/-- C7 amended, at a concrete state: task `1` stored and cached coherently. -/
theorem C7_toggle_flips_exactly_when_read_is_current_witness :
    (service.OpenCloseTask warmWorld 1).2.store.selectByID 1 =
      .ok { ID := 1, Title := "a", Completed := true } ∧
    (service.OpenCloseTask (service.OpenCloseTask warmWorld 1).2 1).2.store.selectByID 1 =
      .ok { ID := 1, Title := "a", Completed := false } :=
  ⟨(C7_toggle_flips_exactly_when_read_is_current warmWorld 1
      { ID := 1, Title := "a", Completed := false } rfl (by decide)).2.1.mpr (by decide),
    ((C7_toggle_flips_exactly_when_read_is_current warmWorld 1
      { ID := 1, Title := "a", Completed := false } rfl (by decide)).2.2.1
        (by decide) (by decide)).mpr (Or.inl rfl)⟩

/-! ## Create, then list -/

theorem service_CreateTask_eq (w : World) (title : String) :
    (service.CreateTask w title).1 =
      ((WriteOp.create { ID := 0, Title := title, Completed := false }).run
        (w.log .info "creating new task")).1 ∧
    (service.CreateTask w title).2.store =
      ((WriteOp.create { ID := 0, Title := title, Completed := false }).run
        (w.log .info "creating new task")).2.store ∧
    (service.CreateTask w title).2.cache =
      ((WriteOp.create { ID := 0, Title := title, Completed := false }).run
        (w.log .info "creating new task")).2.cache := by
  simp only [TaskService.CreateTask, service, postgresRepo, WriteOp.run]
  cases h : (TaskRepository.CreateTask (w.log .info "creating new task")
    { ID := 0, Title := title, Completed := false }).1.2 <;> simp [World.log, World.emit]

theorem service_GetTasks_of_repo (w : World) (rows : List Task)
    (h : (TaskRepository.GetTasks (w.log .info "getting all tasks")).1 = (rows, none)) :
    (service.GetTasks w).1 = (rows, none) := by
  simp only [TaskService.GetTasks, service, postgresRepo, h]

/-- C8 as stated fails.  Behind a cache whose `Delete` times out, list the (no)
tasks, create task "a" (which succeeds and stores row 1), and list again: the
second listing is the cached empty list and has no task titled "a". -/
theorem C8_stale_list_after_create :
    (service.GetTasks deleteFailsEmptyWorld).1 = ([], none) ∧
    (service.CreateTask (service.GetTasks deleteFailsEmptyWorld).2 "a").1 = none ∧
    (service.CreateTask (service.GetTasks deleteFailsEmptyWorld).2 "a").2.store.rows =
      [{ ID := 1, Title := "a", Completed := false }] ∧
    (service.GetTasks (service.CreateTask (service.GetTasks deleteFailsEmptyWorld).2 "a").2).1 =
      ([], none) := by
  decide

/-- C8, amended: for every non-empty title, after `TaskService.CreateTask(title)`
succeeded the store has assigned the next identifier of its sequence to the new
row, and the `GetTasks` that follows returns without error; its list contains
the task with that identifier, that title and `completed = false` exactly when
the cache's `Delete` works or the list key held, before the create, no readable
list that lacks that task.  When `Delete` works or the list key was not
readable, the list is the rows of the store. -/
theorem C8_created_task_is_listed_iff (w : World) (title : String)
    (hne : title ≠ "")
    (hok : (service.CreateTask w title).1 = none) :
    (w.store.insertReturningID title false).1 = .ok w.store.nextID ∧
    (service.GetTasks (service.CreateTask w title).2).1.2 = none ∧
    ({ ID := w.store.nextID, Title := title, Completed := false } ∈
        (service.GetTasks (service.CreateTask w title).2).1.1 ↔
      (w.cache.delErr = none ∨
        ∀ ts, w.cachedTasks = .ok ts →
          { ID := w.store.nextID, Title := title, Completed := false } ∈ ts)) ∧
    ((w.cache.delErr = none ∨ ∃ e, w.cachedTasks = .error e) →
      (service.GetTasks (service.CreateTask w title).2).1 =
        (w.store.rows ++ [{ ID := w.store.nextID, Title := title, Completed := false }], none)) := by
  obtain ⟨e1, e2, e3⟩ := service_CreateTask_eq w title
  rw [e1] at hok
  have hs := WriteOp.storeSucceeds_of_run _ _ hok
  obtain ⟨_, hst, hc, _⟩ := WriteOp.run_of_storeSucceeds _ _ hs
  have hf : w.store.fault = none := by
    simp only [WriteOp.storeSucceeds, World.log, World.emit, Store.insertReturningID] at hs
    cases hf : w.store.fault with
    | none => rfl
    | some e => simp [hf] at hs
  have hins : (w.store.insertReturningID title false) =
      (.ok w.store.nextID, { w.store with
        rows := w.store.rows ++ [{ ID := w.store.nextID, Title := title, Completed := false }],
        nextID := w.store.nextID + 1 }) := by
    simp [Store.insertReturningID, hf]
  have hstore : (service.CreateTask w title).2.store =
      { w.store with
        rows := w.store.rows ++ [{ ID := w.store.nextID, Title := title, Completed := false }],
        nextID := w.store.nextID + 1 } := by
    rw [e2, hst]
    simp only [WriteOp.afterStore, World.log, World.emit, hins]
  have hcache : (service.CreateTask w title).2.cache = (w.cache.Delete tasksCacheKey).2 := by
    rw [e3, hc]
    rfl
  have hsel : ((service.CreateTask w title).2.log .info "getting all tasks").store.selectAll =
      .ok (w.store.rows ++ [{ ID := w.store.nextID, Title := title, Completed := false }],
        none) := by
    show (service.CreateTask w title).2.store.selectAll = _
    rw [hstore]
    simp [Store.selectAll, hf]
  have hread : ((service.CreateTask w title).2.log .info "getting all tasks").cachedTasks =
      (w.cache.Delete tasksCacheKey).2.Get tasksCacheKey >>= Payload.asTasks := by
    show (service.CreateTask w title).2.cache.Get tasksCacheKey >>= Payload.asTasks = _
    rw [hcache]
  have hmiss : ∀ e, ((service.CreateTask w title).2.log .info "getting all tasks").cachedTasks =
      .error e → (service.GetTasks (service.CreateTask w title).2).1 =
        (w.store.rows ++ [{ ID := w.store.nextID, Title := title, Completed := false }],
          none) := by
    intro e he
    apply service_GetTasks_of_repo
    rw [(GetTasks_of_miss _ e he).1, hsel]
  have hhit : ∀ ts, ((service.CreateTask w title).2.log .info "getting all tasks").cachedTasks =
      .ok ts → (service.GetTasks (service.CreateTask w title).2).1 = (ts, none) := by
    intro ts hts
    apply service_GetTasks_of_repo
    rw [GetTasks_of_hit _ ts hts]
  have hdel : w.cache.delErr = none →
      ∃ e, ((service.CreateTask w title).2.log .info "getting all tasks").cachedTasks =
        .error e := by
    intro hd
    obtain ⟨e, he⟩ := Cache.Get_error_of_live_none _ _ (Cache.live_Delete_self w.cache tasksCacheKey hd)
    exact ⟨e, by rw [hread, he]; rfl⟩
  have hkeep : ∀ ed, w.cache.delErr = some ed →
      ((service.CreateTask w title).2.log .info "getting all tasks").cachedTasks =
        w.cachedTasks := by
    intro ed hd
    rw [hread, Cache.Delete_of_delErr _ _ ed hd]
    rfl
  have _ := hne
  refine ⟨by rw [hins], ?_, ?_, ?_⟩
  · cases hct : ((service.CreateTask w title).2.log .info "getting all tasks").cachedTasks with
    | error e => rw [hmiss e hct]
    | ok ts => rw [hhit ts hct]
  · cases hct : ((service.CreateTask w title).2.log .info "getting all tasks").cachedTasks with
    | error e =>
      rw [hmiss e hct]
      simp only [List.mem_append, List.mem_singleton, or_true, true_iff]
      cases hde : w.cache.delErr with
      | none => exact Or.inl rfl
      | some ed =>
        right
        intro ts hts
        rw [hkeep ed hde, hts] at hct
        cases hct
    | ok ts =>
      rw [hhit ts hct]
      cases hde : w.cache.delErr with
      | none =>
        obtain ⟨e, he⟩ := hdel hde
        rw [he] at hct
        cases hct
      | some ed =>
        rw [hkeep ed hde] at hct
        simp only [hct, false_or, reduceCtorEq]
        constructor
        · intro h ts2 h2
          injection h2 with h2
          rw [← h2]
          exact h
        · intro h
          exact h ts rfl
  · rintro (hd | ⟨e, he⟩)
    · obtain ⟨e, he⟩ := hdel hd
      exact hmiss e he
    · cases hde : w.cache.delErr with
      | none =>
        obtain ⟨e2, he2⟩ := hdel hde
        exact hmiss e2 he2
      | some ed => exact hmiss e (by rw [hkeep ed hde, he])

/-- C8 amended, at a concrete state: task `1` is cached in the list, then task "b" is created. -/
theorem C8_created_task_is_listed_iff_witness :
    (service.CreateTask warmWorld "b").1 = none ∧
    (service.GetTasks (service.CreateTask warmWorld "b").2).1 =
      ([{ ID := 1, Title := "a", Completed := false },
        { ID := 2, Title := "b", Completed := false }], none) :=
  ⟨by decide,
    (C8_created_task_is_listed_iff warmWorld "b" (by decide) (by decide)).2.2.2 (Or.inl rfl)⟩

/-! ## Errors -/

theorem CreateTask_err (w : World) (task : Task) :
    (TaskRepository.CreateTask w task).1.2 = (StoreOnly.CreateTask w.store task).1.2 := by
  simp only [TaskRepository.CreateTask, StoreOnly.CreateTask]
  cases (w.store.insertReturningID task.Title task.Completed).1 with
  | error e => rfl
  | ok n => simp only []; split <;> rfl

theorem UpdateTask_err (w : World) (task : Task) :
    (TaskRepository.UpdateTask w task).1 = (StoreOnly.UpdateTask w.store task).1 := by
  simp only [TaskRepository.UpdateTask, StoreOnly.UpdateTask]
  cases (w.store.update task.Title task.Completed task.ID).1 with
  | error e => rfl
  | ok n => by_cases hn : n = 0 <;> simp [hn]

theorem DeleteTask_err (w : World) (id : Int) :
    (TaskRepository.DeleteTask w id).1 = (StoreOnly.DeleteTask w.store id).1 := by
  simp only [TaskRepository.DeleteTask, StoreOnly.DeleteTask]
  cases (w.store.delete id).1 with
  | error e => rfl
  | ok n => by_cases hn : n = 0 <;> simp [hn]

theorem GetTaskByID_of_miss (w : World) (id : Int) (e : GoError)
    (h : w.cachedTask id = .error e) :
    (TaskRepository.GetTaskByID w id).1 = StoreOnly.GetTaskByID w.store id := by
  cases hs : w.store.selectByID id with
  | error err =>
    rw [GetTaskByID_of_miss_error w id e err h hs]
    simp [StoreOnly.GetTaskByID, hs]
  | ok t =>
    rw [(GetTaskByID_of_miss_ok w id e t h hs).1]
    simp [StoreOnly.GetTaskByID, hs]

/-- `GetTasks` does not look at `rows.Err()`: when the connection is reset after
the first of two rows, it returns that one row with no error and caches it
under the list key. -/
theorem GetTasks_returns_rows_read_before_the_failure :
    midQueryWorld.store.selectAll =
      .ok ([{ ID := 1, Title := "a", Completed := false }],
        some (.new "connection reset by peer")) ∧
    (TaskRepository.GetTasks midQueryWorld).1 =
      ([{ ID := 1, Title := "a", Completed := false }], none) ∧
    (TaskRepository.GetTasks midQueryWorld).2.cache.live tasksCacheKey =
      some (.tasks [{ ID := 1, Title := "a", Completed := false }]) :=
  ⟨rfl, by decide, by decide⟩

/-- C9 as stated fails: with the store refusing connections, `GetTaskByID` does
not return the store's error but a new error that wraps it, with another
message; the no-row error of a lookup is wrapped in the same way; and an update
that matches no row, where the store reports no error at all, returns a new
error "task not found". -/
theorem C9_store_error_is_wrapped :
    storeDownWorld.store.selectByID 1 = .error (.new "connection refused") ∧
    (TaskRepository.GetTaskByID storeDownWorld 1).1.2 =
      some (.wrapf "failed to get task: " (.new "connection refused")) ∧
    (TaskRepository.GetTaskByID storeDownWorld 1).1.2 ≠ some (.new "connection refused") ∧
    ((TaskRepository.GetTaskByID storeDownWorld 1).1.2.map GoError.Error) =
      some "failed to get task: connection refused" ∧
    oneTaskWorld.store.selectByID 7 = .error ErrNoRows ∧
    (TaskRepository.GetTaskByID oneTaskWorld 7).1.2 ≠ some ErrNoRows ∧
    (oneTaskWorld.store.update "x" true 7).1 = .ok 0 ∧
    (TaskRepository.UpdateTask oneTaskWorld { ID := 7, Title := "x", Completed := true }).1 =
      some (.new "task not found") :=
  ⟨rfl, by decide, by decide, by decide, rfl, by decide, rfl, by decide⟩

/-- C9, amended: when an operation of the repository sends its statement to the
store and the store call (`QueryRow(...).Scan`, `Query`, `Exec`) returns the
error `e` (the no-row error of a lookup included), the operation returns a new
error that wraps `e`: its message is the operation's own text ("failed to
create task: ", "failed to query tasks: ", "failed to get task: ", "failed to
update task: ", "failed to delete task: ") followed by the message of `e`, and
unwrapping it gives `e` itself.  An error that arises while the rows of
`GetTasks` are read is returned by none of these calls and is not covered. -/
theorem C9_store_error_arrives_wrapped (w : World) (op : RepoOp) (e : GoError)
    (hreach : op.reachesStore w = true) (herr : op.storeErr w.store = some e) :
    op.err w = some (.wrapf op.wrapText e) ∧
    (op.err w).map GoError.Error = some (op.wrapText ++ e.Error) ∧
    (op.err w).bind GoError.Unwrap = some e := by
  have key : op.err w = some (.wrapf op.wrapText e) := by
    cases op with
    | create task =>
      simp only [RepoOp.err, RepoOp.storeErr, RepoOp.wrapText, CreateTask_err,
        StoreOnly.CreateTask] at herr ⊢
      cases hq : (w.store.insertReturningID task.Title task.Completed).1 with
      | error e2 => simp [hq] at herr ⊢; exact herr
      | ok n => simp [hq] at herr
    | list =>
      simp only [RepoOp.reachesStore] at hreach
      cases hc : w.cachedTasks with
      | ok ts => simp [hc] at hreach
      | error e1 =>
        simp only [RepoOp.err, RepoOp.storeErr, RepoOp.wrapText,
          (GetTasks_of_miss w e1 hc).1] at herr ⊢
        cases hq : w.store.selectAll with
        | error e2 => simp [hq] at herr ⊢; exact herr
        | ok n => simp [hq] at herr
    | get id =>
      simp only [RepoOp.reachesStore] at hreach
      cases hc : w.cachedTask id with
      | ok ts => simp [hc] at hreach
      | error e1 =>
        simp only [RepoOp.err, RepoOp.storeErr, RepoOp.wrapText,
          GetTaskByID_of_miss w id e1 hc, StoreOnly.GetTaskByID] at herr ⊢
        cases hq : w.store.selectByID id with
        | error e2 => simp [hq] at herr ⊢; exact herr
        | ok n => simp [hq] at herr
    | update task =>
      simp only [RepoOp.err, RepoOp.storeErr, RepoOp.wrapText, UpdateTask_err,
        StoreOnly.UpdateTask] at herr ⊢
      cases hq : (w.store.update task.Title task.Completed task.ID).1 with
      | error e2 => simp [hq] at herr ⊢; exact herr
      | ok n => simp [hq] at herr
    | delete id =>
      simp only [RepoOp.err, RepoOp.storeErr, RepoOp.wrapText, DeleteTask_err,
        StoreOnly.DeleteTask] at herr ⊢
      cases hq : (w.store.delete id).1 with
      | error e2 => simp [hq] at herr ⊢; exact herr
      | ok n => simp [hq] at herr
  rw [key]
  exact ⟨rfl, rfl, rfl⟩

/-- C9 amended, at a concrete state: a lookup of an absent id on a working store. -/
theorem C9_store_error_arrives_wrapped_witness :
    (TaskRepository.GetTaskByID oneTaskWorld 7).1.2 =
      some (.wrapf "failed to get task: " ErrNoRows) :=
  (C9_store_error_arrives_wrapped oneTaskWorld (.get 7) ErrNoRows rfl rfl).1

/-! ## Not found -/

theorem wrapped_ne_not_found (pre : String) (e : GoError) (h : pre.data.head? = some 'f') :
    (GoError.wrapf pre e).Error ≠ (GoError.new "task not found").Error := by
  intro heq
  simp only [GoError.Error] at heq
  have h2 := congrArg (fun x : String => x.data.head?) heq
  simp only [String.data_append] at h2
  cases hp : pre.data with
  | nil => simp [hp] at h
  | cons c cs =>
    rw [hp] at h h2
    simp at h h2
    subst h
    revert h2
    decide

/-- The errors of the three operations on an id that has no row, when the store
works and the cache does not answer the lookup. -/
theorem errors_of_no_row (w : World) (id : Int) (task : Task)
    (hf : w.store.fault = none) (hno : ∀ t ∈ w.store.rows, t.ID ≠ id) (htask : task.ID = id)
    (hmiss : (RepoOp.get id).reachesStore w = true) :
    (TaskRepository.GetTaskByID w id).1 = (none, some (.wrapf "failed to get task: " ErrNoRows)) ∧
    (TaskRepository.UpdateTask w task).1 = some (.new "task not found") ∧
    (TaskRepository.DeleteTask w id).1 = some (.new "task not found") := by
  have hfind : w.store.rows.find? (fun t => t.ID == id) = none := by
    rw [List.find?_eq_none]
    intro t ht
    simpa using hno t ht
  have hcount : w.store.rows.countP (fun t => t.ID == id) = 0 := by
    rw [List.countP_eq_zero]
    intro t ht
    simpa using hno t ht
  refine ⟨?_, ?_, ?_⟩
  · simp only [RepoOp.reachesStore] at hmiss
    cases hc : w.cachedTask id with
    | ok t => simp [hc] at hmiss
    | error e1 =>
      rw [GetTaskByID_of_miss w id e1 hc]
      simp [StoreOnly.GetTaskByID, Store.selectByID, hf, hfind]
  · rw [UpdateTask_err]
    simp [StoreOnly.UpdateTask, Store.update, hf, htask, hcount]
  · rw [DeleteTask_err]
    simp [StoreOnly.DeleteTask, Store.delete, hf, hcount]

/-- The errors of the three operations when every statement fails with `e` and the
cache does not answer the lookup. -/
theorem errors_of_fault (w : World) (id : Int) (task : Task) (e : GoError)
    (hf : w.store.fault = some e) (hmiss : (RepoOp.get id).reachesStore w = true) :
    (TaskRepository.GetTaskByID w id).1 = (none, some (.wrapf "failed to get task: " e)) ∧
    (TaskRepository.UpdateTask w task).1 = some (.wrapf "failed to update task: " e) ∧
    (TaskRepository.DeleteTask w id).1 = some (.wrapf "failed to delete task: " e) := by
  refine ⟨?_, ?_, ?_⟩
  · simp only [RepoOp.reachesStore] at hmiss
    cases hc : w.cachedTask id with
    | ok t => simp [hc] at hmiss
    | error e1 =>
      rw [GetTaskByID_of_miss w id e1 hc]
      simp [StoreOnly.GetTaskByID, Store.selectByID, hf]
  · rw [UpdateTask_err]
    simp [StoreOnly.UpdateTask, Store.update, hf]
  · rw [DeleteTask_err]
    simp [StoreOnly.DeleteTask, Store.delete, hf]

theorem handler_GetTaskByID_of_err (w : World) (id : Int) (err : GoError)
    (h : (TaskRepository.GetTaskByID (w.log .info "getting task by id") id).1.2 = some err) :
    (TaskHandler.GetTaskByID service w (.ok id)).1 = httpError err StatusInternalServerError := by
  simp only [TaskHandler.GetTaskByID, TaskService.GetTaskByID, service, postgresRepo, h]

theorem handler_RemoveTask_of_err (w : World) (id : Int) (err : GoError)
    (h : (TaskRepository.DeleteTask (w.log .info "removing task") id).1 = some err) :
    (TaskHandler.RemoveTask service w (.ok id)).1 = httpError err StatusInternalServerError := by
  simp only [TaskHandler.RemoveTask, TaskService.RemoveTask, service, postgresRepo, h]

theorem handler_ChangeTaskStatus_of_err (w : World) (id : Int) (err : GoError)
    (h : (TaskRepository.GetTaskByID w id).1.2 = some err) :
    (TaskHandler.ChangeTaskStatus service w (.ok id)).1 =
      some (httpError err StatusInternalServerError) := by
  simp only [TaskHandler.ChangeTaskStatus, TaskService.OpenCloseTask, service, postgresRepo, h]

/-- C10 as stated fails at the caller: the HTTP handlers answer an id without a
row (store working, id `7` absent) with the same status as a store that refuses
connections, 500 Internal Server Error, for the lookup, the removal and the
toggle alike; no handler answers "not found". -/
theorem C10_not_found_and_store_failure_same_status :
    oneTaskWorld.store.selectByID 7 = .error ErrNoRows ∧
    storeDownWorld.store.selectByID 7 = .error (.new "connection refused") ∧
    (TaskHandler.GetTaskByID service oneTaskWorld (.ok 7)).1.status =
      (TaskHandler.GetTaskByID service storeDownWorld (.ok 7)).1.status ∧
    (TaskHandler.GetTaskByID service oneTaskWorld (.ok 7)).1 =
      { status := 500, body := .text "failed to get task: no rows in result set\n" } ∧
    (TaskHandler.GetTaskByID service storeDownWorld (.ok 7)).1 =
      { status := 500, body := .text "failed to get task: connection refused\n" } ∧
    (TaskHandler.RemoveTask service oneTaskWorld (.ok 7)).1.status =
      (TaskHandler.RemoveTask service storeDownWorld (.ok 7)).1.status ∧
    (TaskHandler.RemoveTask service oneTaskWorld (.ok 7)).1 =
      { status := 500, body := .text "task not found\n" } ∧
    (TaskHandler.RemoveTask service storeDownWorld (.ok 7)).1 =
      { status := 500, body := .text "failed to delete task: connection refused\n" } ∧
    (TaskHandler.ChangeTaskStatus service oneTaskWorld (.ok 7)).1.map Response.status = some 500 ∧
    (TaskHandler.ChangeTaskStatus service storeDownWorld (.ok 7)).1.map Response.status =
      some 500 :=
  ⟨rfl, rfl, by decide, by decide, by decide, by decide, by decide, by decide, by decide,
    by decide⟩

theorem string_append_left_inj (p a b : String) : p ++ a = p ++ b ↔ a = b := by
  constructor
  · intro h
    have h2 := congrArg String.data h
    simp only [String.data_append, List.append_cancel_left_eq] at h2
    exact String.ext h2
  · intro h
    rw [h]

theorem string_append_right_inj (a b q : String) : a ++ q = b ++ q ↔ a = b := by
  constructor
  · intro h
    have h2 := congrArg String.data h
    simp only [String.data_append, List.append_cancel_right_eq] at h2
    exact String.ext h2
  · intro h
    rw [h]

theorem httpError_eq_iff (e1 e2 : GoError) (code : Nat) :
    httpError e1 code = httpError e2 code ↔ e1.Error = e2.Error := by
  simp only [httpError, Response.mk.injEq, Body.text.injEq, true_and]
  exact string_append_right_inj _ _ _

/-- C10, amended: for an id with no row in a working store `w` whose cache does
not answer the lookup, `GetTaskByID` fails with the store's no-row error in the
wrapping "failed to get task: ", and `UpdateTask` and `DeleteTask` fail with a new
error "task not found".  Compared with what the same operations return on a
store `w2` that fails with another error `e`: the lookup's error is another
value, and has another message exactly when the message of `e` is not the one
of the no-row error; the message "task not found" is never the message of a
wrapped store error.  The HTTP handlers answer both cases with status 500 and
the error's message as the body, so the responses differ, where they differ,
only in the body. -/
theorem C10_not_found_errors_differ_status_does_not (w w2 : World) (id : Int) (task : Task)
    (e : GoError)
    (hf : w.store.fault = none) (hno : ∀ t ∈ w.store.rows, t.ID ≠ id) (htask : task.ID = id)
    (hmiss : (RepoOp.get id).reachesStore w = true)
    (hf2 : w2.store.fault = some e) (hmiss2 : (RepoOp.get id).reachesStore w2 = true)
    (hne : e ≠ ErrNoRows) :
    (TaskRepository.GetTaskByID w id).1 = (none, some (.wrapf "failed to get task: " ErrNoRows)) ∧
    (TaskRepository.UpdateTask w task).1 = some (.new "task not found") ∧
    (TaskRepository.DeleteTask w id).1 = some (.new "task not found") ∧
    (TaskRepository.GetTaskByID w id).1.2 ≠ (TaskRepository.GetTaskByID w2 id).1.2 ∧
    ((TaskRepository.GetTaskByID w id).1.2.map GoError.Error =
        (TaskRepository.GetTaskByID w2 id).1.2.map GoError.Error ↔
      e.Error = ErrNoRows.Error) ∧
    (TaskRepository.UpdateTask w task).1.map GoError.Error ≠
      (TaskRepository.UpdateTask w2 task).1.map GoError.Error ∧
    (TaskRepository.DeleteTask w id).1.map GoError.Error ≠
      (TaskRepository.DeleteTask w2 id).1.map GoError.Error ∧
    (TaskHandler.GetTaskByID service w (.ok id)).1 =
      httpError (.wrapf "failed to get task: " ErrNoRows) StatusInternalServerError ∧
    (TaskHandler.GetTaskByID service w2 (.ok id)).1 =
      httpError (.wrapf "failed to get task: " e) StatusInternalServerError ∧
    (TaskHandler.RemoveTask service w (.ok id)).1 =
      httpError (.new "task not found") StatusInternalServerError ∧
    (TaskHandler.RemoveTask service w2 (.ok id)).1 =
      httpError (.wrapf "failed to delete task: " e) StatusInternalServerError ∧
    (TaskHandler.ChangeTaskStatus service w (.ok id)).1 =
      some (httpError (.wrapf "failed to get task: " ErrNoRows) StatusInternalServerError) ∧
    (TaskHandler.ChangeTaskStatus service w2 (.ok id)).1 =
      some (httpError (.wrapf "failed to get task: " e) StatusInternalServerError) ∧
    ((TaskHandler.GetTaskByID service w (.ok id)).1 =
        (TaskHandler.GetTaskByID service w2 (.ok id)).1 ↔
      e.Error = ErrNoRows.Error) ∧
    (TaskHandler.RemoveTask service w (.ok id)).1 ≠
      (TaskHandler.RemoveTask service w2 (.ok id)).1 ∧
    (TaskHandler.GetTaskByID service w (.ok id)).1.status =
      (TaskHandler.GetTaskByID service w2 (.ok id)).1.status ∧
    (TaskHandler.RemoveTask service w (.ok id)).1.status =
      (TaskHandler.RemoveTask service w2 (.ok id)).1.status := by
  obtain ⟨a1, a2, a3⟩ := errors_of_no_row w id task hf hno htask hmiss
  obtain ⟨b1, b2, b3⟩ := errors_of_fault w2 id task e hf2 hmiss2
  obtain ⟨c1, _, _⟩ := errors_of_no_row (w.log .info "getting task by id") id task hf hno htask hmiss
  obtain ⟨d1, _, _⟩ := errors_of_fault (w2.log .info "getting task by id") id task e hf2 hmiss2
  obtain ⟨_, _, c3⟩ := errors_of_no_row (w.log .info "removing task") id task hf hno htask hmiss
  obtain ⟨_, _, d3⟩ := errors_of_fault (w2.log .info "removing task") id task e hf2 hmiss2
  have g1 := handler_GetTaskByID_of_err w id _ (show _ = some _ by rw [c1])
  have g2 := handler_GetTaskByID_of_err w2 id _ (show _ = some _ by rw [d1])
  have r1 := handler_RemoveTask_of_err w id _ c3
  have r2 := handler_RemoveTask_of_err w2 id _ d3
  refine ⟨a1, a2, a3, ?_, ?_, ?_, ?_, g1, g2, r1, r2, ?_, ?_, ?_, ?_, ?_, ?_⟩
  · rw [a1, b1]
    intro h
    injection h with h
    injection h with _ h
    exact hne h.symm
  · rw [a1, b1]
    simp only [Option.map_some', Option.some.injEq, GoError.Error]
    rw [string_append_left_inj]
    exact eq_comm
  · rw [a2, b2]
    intro h
    injection h with h
    exact wrapped_ne_not_found "failed to update task: " e rfl h.symm
  · rw [a3, b3]
    intro h
    injection h with h
    exact wrapped_ne_not_found "failed to delete task: " e rfl h.symm
  · exact handler_ChangeTaskStatus_of_err w id _ (by rw [a1])
  · exact handler_ChangeTaskStatus_of_err w2 id _ (by rw [b1])
  · rw [g1, g2, httpError_eq_iff]
    simp only [GoError.Error]
    rw [string_append_left_inj]
    exact eq_comm
  · rw [r1, r2, Ne, httpError_eq_iff]
    intro h
    exact wrapped_ne_not_found "failed to delete task: " e rfl h.symm
  · rw [g1, g2]
    rfl
  · rw [r1, r2]
    rfl

/-- C10 amended, at a concrete state: id `7` is absent from a working store, and
another store refuses connections. -/
theorem C10_not_found_errors_differ_status_does_not_witness :
    (TaskRepository.DeleteTask oneTaskWorld 7).1 = some (.new "task not found") ∧
    (TaskHandler.RemoveTask service oneTaskWorld (.ok 7)).1 =
      httpError (.new "task not found") StatusInternalServerError ∧
    (TaskHandler.RemoveTask service storeDownWorld (.ok 7)).1 =
      httpError (.wrapf "failed to delete task: " (.new "connection refused"))
        StatusInternalServerError :=
  ⟨(C10_not_found_errors_differ_status_does_not oneTaskWorld storeDownWorld 7
      { ID := 7, Title := "x", Completed := false } (.new "connection refused")
      rfl (by decide) rfl rfl rfl rfl (by decide)).2.2.1,
    (C10_not_found_errors_differ_status_does_not oneTaskWorld storeDownWorld 7
      { ID := 7, Title := "x", Completed := false } (.new "connection refused")
      rfl (by decide) rfl rfl rfl rfl (by decide)).2.2.2.2.2.2.2.2.2.1,
    (C10_not_found_errors_differ_status_does_not oneTaskWorld storeDownWorld 7
      { ID := 7, Title := "x", Completed := false } (.new "connection refused")
      rfl (by decide) rfl rfl rfl rfl (by decide)).2.2.2.2.2.2.2.2.2.2.1⟩

/-- C11: the service passes the repository's outcome through.  Over any
repository and logger, `CreateTask(title)` returns exactly the error of the
repository's `CreateTask` called with the task of that title, id 0 and
`completed = false`; `GetTasks` and `GetTaskByID(id)` return the repository's
error unchanged, with the repository's value when that error is nil and a nil
value otherwise.  Over the recording mock each of the three makes exactly one
call to the repository, with those arguments. -/
theorem C11_service_passes_repository_outcome_through {σ : Type} (s : TaskService σ) (st : σ)
    (title : String) (id : Int) (m : MockRepository) :
    (s.CreateTask st title).1 =
      (s.repo.CreateTask (s.logger st .info "creating new task")
        { ID := 0, Title := title, Completed := false }).1.2 ∧
    (s.GetTasks st).1 =
      (if (s.repo.GetTasks (s.logger st .info "getting all tasks")).1.2.isSome then []
        else (s.repo.GetTasks (s.logger st .info "getting all tasks")).1.1,
       (s.repo.GetTasks (s.logger st .info "getting all tasks")).1.2) ∧
    (s.GetTaskByID st id).1 =
      (if (s.repo.GetTaskByID (s.logger st .info "getting task by id") id).1.2.isSome then none
        else (s.repo.GetTaskByID (s.logger st .info "getting task by id") id).1.1,
       (s.repo.GetTaskByID (s.logger st .info "getting task by id") id).1.2) ∧
    mockService.CreateTask m title =
      (m.onCreateTask,
        { m with calls := m.calls ++ [.CreateTask { ID := 0, Title := title, Completed := false }] }) ∧
    mockService.GetTasks m =
      ((if m.onGetTasks.2.isSome then [] else m.onGetTasks.1, m.onGetTasks.2),
        { m with calls := m.calls ++ [.GetTasks] }) ∧
    mockService.GetTaskByID m id =
      ((if m.onGetTaskByID.2.isSome then none else m.onGetTaskByID.1, m.onGetTaskByID.2),
        { m with calls := m.calls ++ [.GetTaskByID id] }) := by
  refine ⟨?_, ?_, ?_, ?_, ?_, ?_⟩
  · simp only [TaskService.CreateTask]
    cases h : (s.repo.CreateTask (s.logger st .info "creating new task")
      { ID := 0, Title := title, Completed := false }).1.2 <;> rfl
  · simp only [TaskService.GetTasks]
    cases h : (s.repo.GetTasks (s.logger st .info "getting all tasks")).1.2 <;> simp
  · simp only [TaskService.GetTaskByID]
    cases h : (s.repo.GetTaskByID (s.logger st .info "getting task by id") id).1.2 <;> simp
  · simp only [TaskService.CreateTask, mockService, mockRepo]
    cases h : m.onCreateTask <;> rfl
  · simp only [TaskService.GetTasks, mockService, mockRepo]
    cases h : m.onGetTasks.2 <;> simp
  · simp only [TaskService.GetTaskByID, mockService, mockRepo]
    cases h : m.onGetTaskByID.2 <;> simp

/-- C12: when the cache answers the read of the list key with a list `ts`
(the key is present, unexpired, `Get` works and the payload deserializes),
`GetTasks` returns `ts` with no error, and its only call to a backend is that
cache `Get`: no store query, no cache `Set` or `Delete`, store and cache as they
were.  Likewise `GetTaskByID(id)` when the cache answers the read of
"task:<id>" with a task `t`. -/
theorem C12_cache_hit_is_returned_untouched (w : World) (id : Int) :
    (∀ ts, w.cachedTasks = .ok ts →
      (TaskRepository.GetTasks w).1 = (ts, none) ∧
      ((TaskRepository.GetTasks w).2.since w).filter Effect.isStore = [] ∧
      ((TaskRepository.GetTasks w).2.since w).filter Effect.isCache =
        [.cacheGet tasksCacheKey] ∧
      (TaskRepository.GetTasks w).2.store = w.store ∧
      (TaskRepository.GetTasks w).2.cache = w.cache) ∧
    (∀ t, w.cachedTask id = .ok t →
      (TaskRepository.GetTaskByID w id).1 = (some t, none) ∧
      ((TaskRepository.GetTaskByID w id).2.since w).filter Effect.isStore = [] ∧
      ((TaskRepository.GetTaskByID w id).2.since w).filter Effect.isCache =
        [.cacheGet (itemKey id)] ∧
      (TaskRepository.GetTaskByID w id).2.store = w.store ∧
      (TaskRepository.GetTaskByID w id).2.cache = w.cache) := by
  refine ⟨?_, ?_⟩
  · intro ts h
    rw [GetTasks_of_hit w ts h]
    refine ⟨rfl, ?_, ?_, rfl, rfl⟩
    · rw [since_of_trace_eq rfl]
      simp [Effect.isStore]
    · rw [since_of_trace_eq rfl]
      simp [Effect.isCache]
  · intro t h
    rw [GetTaskByID_of_hit w id t h]
    refine ⟨rfl, ?_, ?_, rfl, rfl⟩
    · rw [since_of_trace_eq rfl]
      simp [Effect.isStore]
    · rw [since_of_trace_eq rfl]
      simp [Effect.isCache]

/-- C12 at a concrete state: task `1` is cached under both keys, and the store is
not even reachable. -/
theorem C12_cache_hit_is_returned_untouched_witness :
    ({ warmWorld with store := downStore } : World).cachedTasks =
      .ok [{ ID := 1, Title := "a", Completed := false }] ∧
    (TaskRepository.GetTasks { warmWorld with store := downStore }).1 =
      ([{ ID := 1, Title := "a", Completed := false }], none) ∧
    ({ warmWorld with store := downStore } : World).cachedTask 1 =
      .ok { ID := 1, Title := "a", Completed := false } ∧
    (TaskRepository.GetTaskByID { warmWorld with store := downStore } 1).1 =
      (some { ID := 1, Title := "a", Completed := false }, none) :=
  ⟨rfl,
    ((C12_cache_hit_is_returned_untouched { warmWorld with store := downStore } 1).1 _ rfl).1,
    rfl,
    ((C12_cache_hit_is_returned_untouched { warmWorld with store := downStore } 1).2 _ rfl).1⟩

/-! ## Decimal numerals -/

theorem digitValue_digitChar (d : Nat) (h : d < 10) : digitValue (Nat.digitChar d) = d := by
  interval_cases d <;> rfl

theorem digitChar_ne_minus (d : Nat) (h : d < 10) : Nat.digitChar d ≠ '-' := by
  interval_cases d <;> decide

theorem foldl_toDigitsCore (fuel : Nat) :
    ∀ (n : Nat) (ds : List Char), n < fuel →
      (Nat.toDigitsCore 10 fuel n ds).foldl (fun acc c => acc * 10 + digitValue c) 0 =
        ds.foldl (fun acc c => acc * 10 + digitValue c) n := by
  induction fuel with
  | zero => intro n ds h; omega
  | succ fuel ih =>
    intro n ds h
    simp only [Nat.toDigitsCore]
    have hd : digitValue (Nat.digitChar (n % 10)) = n % 10 :=
      digitValue_digitChar _ (Nat.mod_lt _ (by decide))
    by_cases h0 : n / 10 = 0
    · simp only [h0, if_true, List.foldl_cons, hd]
      congr 1
      omega
    · simp only [h0, if_false]
      rw [ih (n / 10) _ (by omega)]
      simp only [List.foldl_cons, hd]
      congr 1
      omega

theorem readNat_toDigits (n : Nat) : readNat (Nat.toDigits 10 n) = n := by
  simp only [readNat, Nat.toDigits]
  rw [foldl_toDigitsCore (n + 1) n [] (by omega)]
  rfl

theorem toDigitsCore_ne_minus (fuel : Nat) :
    ∀ (n : Nat) (ds : List Char), (∀ c ∈ ds, c ≠ '-') →
      ∀ c ∈ Nat.toDigitsCore 10 fuel n ds, c ≠ '-' := by
  induction fuel with
  | zero => intro n ds h; simpa [Nat.toDigitsCore] using h
  | succ fuel ih =>
    intro n ds h
    simp only [Nat.toDigitsCore]
    have hd : Nat.digitChar (n % 10) ≠ '-' := digitChar_ne_minus _ (Nat.mod_lt _ (by decide))
    have hds : ∀ c ∈ Nat.digitChar (n % 10) :: ds, c ≠ '-' := by
      intro c hc
      rcases List.mem_cons.mp hc with rfl | hc
      · exact hd
      · exact h c hc
    by_cases h0 : n / 10 = 0
    · simpa only [h0, if_true] using hds
    · simp only [h0, if_false]
      exact ih _ _ hds

theorem readInt_toDigits (n : Nat) : readInt (Nat.toDigits 10 n) = (n : Int) := by
  have hne := toDigitsCore_ne_minus (n + 1) n [] (by simp)
  have hr := readNat_toDigits n
  unfold Nat.toDigits at hr ⊢
  cases hl : Nat.toDigitsCore 10 (n + 1) n [] with
  | nil =>
    rw [hl] at hr
    simp only [readInt]
    simp [readNat] at hr
    omega
  | cons c rest =>
    rw [hl] at hr hne
    have hc : c ≠ '-' := hne c (by simp)
    simp only [readInt, hc, if_false, hr]

/-- Reading the decimal form of an integer gives the integer back. -/
theorem readInt_toString (i : Int) : readInt (toString i).data = i := by
  cases i with
  | ofNat n =>
    show readInt (Nat.repr n).data = _
    simp only [Nat.repr, List.asString]
    exact readInt_toDigits n
  | negSucc n =>
    show readInt ("-" ++ Nat.repr (n + 1)).data = _
    simp only [String.data_append, Nat.repr, List.asString]
    show readInt ('-' :: Nat.toDigits 10 (n + 1)) = _
    simp only [readInt, if_true, readNat_toDigits]
    rfl

theorem itemKeyID_itemKey (i : Int) : itemKeyID (itemKey i) = i := by
  simp only [itemKeyID, itemKey, String.data_append]
  have : (taskCacheKeyPrefix.data ++ (toString i).data).drop taskCacheKeyPrefix.length =
      (toString i).data := by
    show (taskCacheKeyPrefix.data ++ (toString i).data).drop taskCacheKeyPrefix.data.length = _
    exact List.drop_left _ _
  rw [this]
  exact readInt_toString i

/-- C13: the key scheme is a function of the identifier and has no collision:
the item key of `i` is "task:" followed by the decimal form of `i`; the item
keys of `i` and `j` are equal exactly when `i = j` (the identifier can be read
back from the key); and no item key is the list key "tasks:all". -/
theorem C13_cache_keys_do_not_collide (i j : Int) :
    itemKey i = "task:" ++ toString i ∧
    (itemKey i = itemKey j ↔ i = j) ∧
    itemKeyID (itemKey i) = i ∧
    itemKey i ≠ tasksCacheKey ∧
    tasksCacheKey = "tasks:all" := by
  refine ⟨rfl, ⟨?_, ?_⟩, itemKeyID_itemKey i, ?_, rfl⟩
  · intro h
    have := congrArg itemKeyID h
    rwa [itemKeyID_itemKey, itemKeyID_itemKey] at this
  · intro h
    rw [h]
  · intro h
    have h2 := congrArg (fun k : String => k.data.get? 4) h
    simp only [itemKey, String.data_append] at h2
    revert h2
    show (['t', 'a', 's', 'k', ':'] ++ (toString i).data).get? 4 ≠
      ['t', 'a', 's', 'k', 's', ':', 'a', 'l', 'l'].get? 4
    simp

end TodoApi
